import Mathlib

/-!
Verification of the portfolio analytics engine of the personal-finance
dashboard (frontend `computeRatioSections` and the holdings wire format of
the select/dashboard pages).

Modelling conventions, used throughout:

* JavaScript `number` values are idealised as real numbers `ℝ`.
  `Math.sqrt` is `Real.sqrt` and `Math.pow` is `Real.rpow`
  (they agree on the non-negative inputs the claims are about).
* `Ratio.value` is a `String` in the source; every produced string is either
  the literal sentinel `"—"`, the decimal rendering of a finite number
  (`toFixed`, `formatPercent`, `String(n)` — none of which can ever be the
  one-character string `"—"`), or `"NaN%"` when a rolling-return lookup runs
  off the front of the array.  We therefore model the value as the variant
  `RVal` carrying the raw numeric payload; the final filter
  `r.value !== "—"` becomes `¬ r.value.isSentinel`.
* JavaScript out-of-range array reads (`values[-1]`) yield `undefined`, and
  arithmetic on `undefined` yields `NaN`; in the one place this can happen
  (the rolling-return block) we model the read with `jsGet : … → Option ℝ`
  and a failed read produces `RVal.nan`.  Every `x >= c` comparison on `NaN`
  is false in JavaScript, so the sentiment attached to a `NaN` rolling
  return is the final `"very-negative"` bucket.
-/

/-- The four-level sentiment verdict (`type Sentiment` in the source). -/
inductive Sentiment where
  | positive
  | neutral
  | slightlyNegative
  | veryNegative
  deriving DecidableEq, Repr

/-- Rank of a sentiment in the ordinal scale
`positive > neutral > slightly-negative > very-negative` (spec §4.8). -/
def sentRank : Sentiment → ℕ
  | .positive => 3
  | .neutral => 2
  | .slightlyNegative => 1
  | .veryNegative => 0

noncomputable section

/-- `RISK_FREE_RATE` constant of the source. -/
def RISK_FREE_RATE : ℝ := 0.04

/-- `TRADING_DAYS_PER_YEAR` constant of the source. -/
def TRADING_DAYS_PER_YEAR : ℕ := 252

/-- `returnSentiment` of the source. -/
def returnSentiment (r : ℝ) : Sentiment :=
  if r ≥ 0.10 then .positive
  else if r ≥ 0 then .neutral
  else if r ≥ -0.05 then .slightlyNegative
  else .veryNegative

/-- `sharpeFamily` of the source. -/
def sharpeFamily (n : ℝ) : Sentiment :=
  if n ≥ 1.5 then .positive
  else if n ≥ 0.5 then .neutral
  else if n ≥ 0 then .slightlyNegative
  else .veryNegative

/-- `drawdownSentiment` of the source (its argument is a negative number). -/
def drawdownSentiment (dd : ℝ) : Sentiment :=
  if dd > -0.10 then .positive
  else if dd > -0.20 then .neutral
  else if dd > -0.35 then .slightlyNegative
  else .veryNegative

/-- `calmarSentiment` of the source. -/
def calmarSentiment (c : ℝ) : Sentiment :=
  if c ≥ 0.75 then .positive
  else if c ≥ 0.3 then .neutral
  else if c ≥ 0 then .slightlyNegative
  else .veryNegative

/-- `downsideDevSentiment` of the source. -/
def downsideDevSentiment (d : ℝ) : Sentiment :=
  if d ≤ 0.10 then .positive
  else if d ≤ 0.20 then .neutral
  else if d ≤ 0.35 then .slightlyNegative
  else .veryNegative

/-- `ulcerSentiment` of the source. -/
def ulcerSentiment (u : ℝ) : Sentiment :=
  if u ≤ 5 then .positive
  else if u ≤ 15 then .neutral
  else if u ≤ 25 then .slightlyNegative
  else .veryNegative

/-- `durationSentiment` of the source. -/
def durationSentiment (days : ℝ) : Sentiment :=
  if days ≤ 15 then .positive
  else if days ≤ 30 then .neutral
  else if days ≤ 45 then .slightlyNegative
  else .veryNegative

/-- `betaSentiment` of the source: classifies by the absolute value of beta. -/
def betaSentiment (b : ℝ) : Sentiment :=
  if |b| ≤ 1.0 then .neutral
  else if |b| ≤ 1.5 then .slightlyNegative
  else .veryNegative

/-- `alphaSentiment` of the source. -/
def alphaSentiment (a : ℝ) : Sentiment :=
  if a ≥ 0.02 then .positive
  else if a ≥ 0 then .neutral
  else if a ≥ -0.02 then .slightlyNegative
  else .veryNegative

/-- `infoRatioSentiment` of the source. -/
def infoRatioSentiment (ir : ℝ) : Sentiment :=
  if ir ≥ 0.5 then .positive
  else if ir ≥ 0 then .neutral
  else if ir ≥ -0.5 then .slightlyNegative
  else .veryNegative

/-- `varSentiment` of the source (its argument is a negative daily return). -/
def varSentiment (v : ℝ) : Sentiment :=
  if v > -0.01 then .positive
  else if v > -0.02 then .neutral
  else if v > -0.04 then .slightlyNegative
  else .veryNegative

/-- `cvarSentiment` of the source. -/
def cvarSentiment (v : ℝ) : Sentiment :=
  if v > -0.02 then .positive
  else if v > -0.04 then .neutral
  else if v > -0.07 then .slightlyNegative
  else .veryNegative

/-- `skewnessSentiment` of the source. -/
def skewnessSentiment (s : ℝ) : Sentiment :=
  if s ≥ 0.5 then .positive
  else if s ≥ -0.5 then .neutral
  else if s ≥ -1 then .slightlyNegative
  else .veryNegative

/-- `kurtosisSentiment` of the source. -/
def kurtosisSentiment (k : ℝ) : Sentiment :=
  if k ≤ 1 then .positive
  else if k ≤ 3 then .neutral
  else if k ≤ 5 then .slightlyNegative
  else .veryNegative

/-- `hhiSentiment` of the source. -/
def hhiSentiment (h : ℝ) : Sentiment :=
  if h ≤ 0.10 then .positive
  else if h ≤ 0.18 then .neutral
  else if h ≤ 0.25 then .slightlyNegative
  else .veryNegative

/-- `effectiveNSentiment` of the source. -/
def effectiveNSentiment (n : ℝ) : Sentiment :=
  if n ≥ 10 then .positive
  else if n ≥ 5 then .neutral
  else if n ≥ 3 then .slightlyNegative
  else .veryNegative

/-- `topHoldingPctSentiment` of the source. -/
def topHoldingPctSentiment (p : ℝ) : Sentiment :=
  if p ≤ 0.20 then .positive
  else if p ≤ 0.35 then .neutral
  else if p ≤ 0.50 then .slightlyNegative
  else .veryNegative

/-- `top5PctSentiment` of the source. -/
def top5PctSentiment (p : ℝ) : Sentiment :=
  if p ≤ 0.50 then .positive
  else if p ≤ 0.70 then .neutral
  else if p ≤ 0.85 then .slightlyNegative
  else .veryNegative

/-- `top10PctSentiment` of the source. -/
def top10PctSentiment (p : ℝ) : Sentiment :=
  if p ≤ 0.70 then .positive
  else if p ≤ 0.85 then .neutral
  else if p ≤ 0.95 then .slightlyNegative
  else .veryNegative

/-- `volSentiment` of the source. -/
def volSentiment (v : ℝ) : Sentiment :=
  if v ≤ 0.10 then .positive
  else if v ≤ 0.20 then .neutral
  else if v ≤ 0.35 then .slightlyNegative
  else .veryNegative

/-- `liquiditySentiment` of the source. -/
def liquiditySentiment (l : ℝ) : Sentiment :=
  if l ≥ 0.30 then .positive
  else if l ≥ 0.15 then .neutral
  else if l ≥ 0.05 then .slightlyNegative
  else .veryNegative

end

/-- `AssetClass` of the source types. -/
inductive AssetClass where
  | cash
  | stocks
  | bonds
  | crypto
  deriving DecidableEq, Repr

/-- `Holding` of the source types (numbers idealised as reals). -/
structure Holding where
  assetId : String
  name : String
  assetClass : AssetClass
  ticker : Option String
  valueUSD : ℝ

/-- The `totals` field of `Portfolio`. -/
structure PortfolioTotals where
  totalValueUSD : ℝ

/-- The `allocationApprox` field of `Portfolio`. -/
structure AllocationApprox where
  cash : ℝ
  stocks : ℝ
  bonds : ℝ
  crypto : ℝ

/-- `Portfolio` of the source types. -/
structure Portfolio where
  name : String
  notes : String
  holdings : List Holding
  totals : PortfolioTotals
  allocationApprox : AllocationApprox

/-- `UserProfile` of the source types. -/
structure UserProfile where
  userId : String
  name : String
  asOf : String
  baseCurrency : String
  netWorthUSD : ℝ
  portfolio : Portfolio

/-- `PricePoint` of the source types. -/
structure PricePoint where
  date : String
  valueUSD : ℝ

/-- `PortfolioPriceHistory` of the source types (`sp500`/`bitcoin` optional). -/
structure PortfolioPriceHistory where
  data : List PricePoint
  sp500 : Option (List PricePoint)
  bitcoin : Option (List PricePoint)

/-- The value of a computed `Ratio`.  In the source this is a `String`; see
the header comment: `sentinel` is the literal `"—"`, `nan` is the rendering
of a `NaN` number, and `num x` is the decimal rendering of the finite
number `x` (`toFixed` / `formatPercent` / `String(..)`), which is never the
string `"—"`. -/
inductive RVal where
  | sentinel
  | nan
  | num (x : ℝ)

/-- The filter predicate `r.value !== "—"` of the final pass, on `RVal`. -/
def RVal.isSentinel : RVal → Bool
  | .sentinel => true
  | _ => false

/-- One entry of `RatioSection.ratios` in the source. -/
structure Ratio where
  label : String
  value : RVal
  description : Option String
  sentiment : Option Sentiment

/-- `RatioSection` of the source. -/
structure RatioSection where
  id : String
  title : String
  description : Option String
  ratios : List Ratio

noncomputable section

/-- Mean of a list, as in `arr.reduce((a, b) => a + b, 0) / arr.length`
(the `0 / 0` case of an empty list is idealised to `0`). -/
def fMean (l : List ℝ) : ℝ := l.sum / l.length

/-- The daily simple-return series
`values.slice(1).map((v, i) => (v - values[i]) / values[i])`. -/
def dailyReturns (values : List ℝ) : List ℝ :=
  (values.zip values.tail).map (fun p => (p.2 - p.1) / p.1)

/-- Bessel-corrected sample variance
`dailyReturns.reduce((s, r) => s + (r - mean) ** 2, 0) / Math.max(1, dailyReturns.length - 1)`. -/
def sampleVar (l : List ℝ) : ℝ :=
  ((l.map (fun r => (r - fMean l) ^ 2)).sum) / (max 1 (l.length - 1) : ℕ)

/-- Population variance `arr.reduce((s, r) => s + (r - mean) ** 2, 0) / arr.length`. -/
def popVar (l : List ℝ) : ℝ :=
  ((l.map (fun r => (r - fMean l) ^ 2)).sum) / l.length

/-- Population covariance
`pr.reduce((s, p, i) => s + (p - portMean) * (sr[i] - spMean), 0) / minLen`. -/
def popCov (xs ys : List ℝ) : ℝ :=
  (((xs.zip ys).map (fun p => (p.1 - fMean xs) * (p.2 - fMean ys))).sum) / xs.length

/-- Annualized volatility `Math.sqrt(variance) * Math.sqrt(252)`. -/
def annualizedVol (returns : List ℝ) : ℝ :=
  Real.sqrt (sampleVar returns) * Real.sqrt (TRADING_DAYS_PER_YEAR : ℝ)

/-- Downside variance: population mean square of the negative daily returns,
`0` when there is no negative return. -/
def downsideVariance (returns : List ℝ) : ℝ :=
  let ds := returns.filter (fun r => decide (r < 0))
  if ds.length > 0 then ((ds.map (fun r => r * r)).sum) / ds.length else 0

/-- Downside deviation `Math.sqrt(downsideVariance) * Math.sqrt(252)`. -/
def downsideDev (returns : List ℝ) : ℝ :=
  Real.sqrt (downsideVariance returns) * Real.sqrt (TRADING_DAYS_PER_YEAR : ℝ)

/-- `Math.pow(values[n-1] / values[0], 252 / n) - 1` with `n` the number of
price points. -/
def cagrOf (values : List ℝ) : ℝ :=
  (values.getLastD 0 / values.headD 0) ^ ((TRADING_DAYS_PER_YEAR : ℝ) / values.length) - 1

/-- The running-peak loop of the max-drawdown computation: `peak` is the
running maximum, `m` the most negative drawdown seen so far. -/
def maxDrawdownGo : List ℝ → ℝ → ℝ → ℝ
  | [], _, m => m
  | v :: rest, peak, m =>
      let peak2 := max peak v
      maxDrawdownGo rest peak2 (min m (v / peak2 - 1))

/-- Max drawdown: `peak = values[0]; maxDD = 0;` then for each value,
`peak = max(peak, v); maxDD = min(maxDD, v / peak - 1)`. -/
def maxDrawdown (values : List ℝ) : ℝ :=
  maxDrawdownGo values (values.headD 0) 0

/-- The running-peak loop of the ulcer index: accumulates
`((v / peak - 1) * 100) ** 2`. -/
def ulcerGo : List ℝ → ℝ → ℝ → ℝ
  | [], _, s => s
  | v :: rest, peak, s =>
      let peak2 := max peak v
      ulcerGo rest peak2 (s + ((v / peak2 - 1) * 100) ^ 2)

/-- Ulcer index `Math.sqrt(ulcerSum / values.length)`. -/
def ulcerIndex (values : List ℝ) : ℝ :=
  Real.sqrt (ulcerGo values (values.headD 0) 0 / values.length)

/-- The max-drawdown-duration loop of the source, with explicit state:
`i` is the current index, `peak` the running peak, `inD`/`start` the
`inDrawdown`/`drawdownStart` variables and `maxD` the best duration so far.
When `values[i] < peak` the source records `i - drawdownStart`. -/
def mddGo : List ℝ → ℕ → ℝ → Bool → ℕ → ℕ → ℕ
  | [], _, _, _, _, maxD => maxD
  | v :: rest, i, peak, inD, start, maxD =>
      let peak2 := max peak v
      if v < peak2 then
        let start2 := if inD then start else i
        mddGo rest (i + 1) peak2 true start2 (max maxD (i - start2))
      else
        mddGo rest (i + 1) peak2 false start maxD

/-- `maxDrawdownDuration` of the source. -/
def maxDrawdownDuration (values : List ℝ) : ℕ :=
  mddGo values 0 (values.headD 0) false 0 0

/-- JavaScript array read `values[i]` with a possibly negative index:
out-of-range reads yield `undefined`, modelled as `none`. -/
def jsGet (l : List ℝ) (i : ℤ) : Option ℝ :=
  if i < 0 then none else l.get? i.toNat

/-- One rolling-return computation of the source:
`values.length >= k ? Math.pow(values[values.length-1] / values[values.length-1-k], p) - 1 : null`.
The outer `Option` is the `null` of the guard; the inner `Option` is `none`
when one of the array reads is out of range, in which case the JavaScript
result is `NaN`. -/
def rollingReturn (values : List ℝ) (k : ℕ) (p : ℝ) : Option (Option ℝ) :=
  if values.length ≥ k then
    some (match jsGet values ((values.length : ℤ) - 1 - (k : ℤ)),
                jsGet values ((values.length : ℤ) - 1) with
          | some a, some b => some ((b / a) ^ p - 1)
          | _, _ => none)
  else none

/-- `roll != null ? formatPercent(roll) : "—"` for a rolling return. -/
def rollValue : Option (Option ℝ) → RVal
  | none => .sentinel
  | some none => .nan
  | some (some x) => .num x

/-- `roll != null ? returnSentiment(roll) : undefined` for a rolling return;
`returnSentiment(NaN)` is `"very-negative"` because every `>=` comparison on
`NaN` is false. -/
def rollSent : Option (Option ℝ) → Option Sentiment
  | none => none
  | some none => some .veryNegative
  | some (some x) => some (returnSentiment x)

end

noncomputable section

/-- The `--- Return quality ---` block of `computeRatioSections`. -/
def returnQualityRatios (data : List PricePoint) : List Ratio :=
  let values := data.map (·.valueUSD)
  (if data.length ≥ 2 then
    [⟨"CAGR / Annualized return", .num (cagrOf values),
      some "How fast did it grow per year?", some (returnSentiment (cagrOf values))⟩]
   else
    [⟨"CAGR / Annualized return", .sentinel, some "How fast did it grow per year?", none⟩])
  ++ [⟨"TWR vs IRR", .sentinel,
      some "Time-weighted vs Money-weighted return (needs deposit/withdrawal data)", none⟩]
  ++ (if data.length ≥ TRADING_DAYS_PER_YEAR then
       [⟨"Rolling 1Y return", rollValue (rollingReturn values TRADING_DAYS_PER_YEAR 1),
         some "Stability across different start dates",
         rollSent (rollingReturn values TRADING_DAYS_PER_YEAR 1)⟩,
        ⟨"Rolling 3Y return", rollValue (rollingReturn values (3 * TRADING_DAYS_PER_YEAR) (1 / 3)),
         some "Stability across different start dates",
         rollSent (rollingReturn values (3 * TRADING_DAYS_PER_YEAR) (1 / 3))⟩,
        ⟨"Rolling 5Y return", rollValue (rollingReturn values (5 * TRADING_DAYS_PER_YEAR) (1 / 5)),
         some "Stability across different start dates",
         rollSent (rollingReturn values (5 * TRADING_DAYS_PER_YEAR) (1 / 5))⟩]
      else
       [⟨"Rolling 1Y return", .sentinel, some "Need ≥1 year of data", none⟩,
        ⟨"Rolling 3Y return", .sentinel, some "Need ≥3 years of data", none⟩,
        ⟨"Rolling 5Y return", .sentinel, some "Need ≥5 years of data", none⟩])

/-- The `--- Risk that Sharpe misses ---` block of `computeRatioSections`. -/
def riskRatios (data : List PricePoint) : List Ratio :=
  if data.length ≥ 2 then
    let values := data.map (·.valueUSD)
    let returns := dailyReturns values
    let dDev := downsideDev returns
    let sortino := if dDev > 0 then (cagrOf values - RISK_FREE_RATE) / dDev else 0
    let maxDD := maxDrawdown values
    let calmar := if maxDD ≠ 0 then cagrOf values / |maxDD| else 0
    let ulcer := ulcerIndex values
    let mddDur := maxDrawdownDuration values
    [⟨"Sortino ratio", .num sortino,
      some "Like Sharpe, but only penalizes downside volatility", some (sharpeFamily sortino)⟩,
     ⟨"Downside deviation", .num dDev,
      some "Risk of bad outcomes, not all wiggles", some (downsideDevSentiment dDev)⟩,
     ⟨"Calmar ratio", .num calmar,
      some "Annualized return ÷ max drawdown (pain vs gain)", some (calmarSentiment calmar)⟩,
     ⟨"Max drawdown", .num maxDD, none, some (drawdownSentiment maxDD)⟩,
     ⟨"Ulcer index", .num ulcer, some "How deep underwater", some (ulcerSentiment ulcer)⟩,
     ⟨"Max drawdown duration (days)", .num (mddDur : ℝ),
      some "How long underwater", some (durationSentiment (mddDur : ℝ))⟩]
  else
    [⟨"Sortino ratio", .sentinel, some "Like Sharpe, but only penalizes downside volatility", none⟩,
     ⟨"Downside deviation", .sentinel, some "Risk of bad outcomes", none⟩,
     ⟨"Calmar ratio", .sentinel, some "Annualized return ÷ max drawdown", none⟩,
     ⟨"Max drawdown", .sentinel, none, none⟩,
     ⟨"Ulcer index", .sentinel, some "How deep underwater", none⟩,
     ⟨"Max drawdown duration (days)", .sentinel, some "How long underwater", none⟩]

/-- `new Map(sp500.map((p) => [p.date, p.valueUSD])).get(d)`: the last entry
with a given date wins, hence the lookup on the reversed list. -/
def spLookup (sp : List PricePoint) (d : String) : Option ℝ :=
  (sp.reverse.find? (fun p => p.date == d)).map (·.valueUSD)

/-- The date-aligned `(portfolio value, benchmark value)` pairs of the
benchmark block (inner join of `data` with the benchmark by exact date). -/
def alignedPairs (data sp : List PricePoint) : List (ℝ × ℝ) :=
  data.filterMap (fun p => (spLookup sp p.date).map (fun s => (p.valueUSD, s)))

/-- Tracking error: annualized RMS of the per-day difference between the
aligned portfolio and benchmark returns. -/
def trackingErrOf (pr sr : List ℝ) : ℝ :=
  Real.sqrt ((((pr.zip sr).map (fun p => (p.1 - p.2) ^ 2)).sum) / pr.length)
    * Real.sqrt (TRADING_DAYS_PER_YEAR : ℝ)

/-- The `--- Market sensitivity & benchmark skill ---` block. -/
def marketRatios (data sp500 : List PricePoint) : List Ratio :=
  if data.length ≥ 2 ∧ sp500.length > 0 then
    let aligned := alignedPairs data sp500
    if aligned.length ≥ 2 then
      let pr := dailyReturns (aligned.map (·.1))
      let sr := dailyReturns (aligned.map (·.2))
      let portMean := fMean pr
      let spMean := fMean sr
      let cov := popCov pr sr
      let varSp := popVar sr
      let beta := if varSp > 0 then cov / varSp else 0
      let alpha := (portMean - RISK_FREE_RATE / TRADING_DAYS_PER_YEAR)
        - beta * (spMean - RISK_FREE_RATE / TRADING_DAYS_PER_YEAR)
      let annualizedAlpha := alpha * TRADING_DAYS_PER_YEAR
      let trackingErr := trackingErrOf pr sr
      let activeReturn := (portMean - spMean) * TRADING_DAYS_PER_YEAR
      let infoRatio := if trackingErr > 0 then activeReturn / trackingErr else 0
      let varPort := popVar pr
      let r2 := if varSp > 0 ∧ varPort > 0 then cov ^ 2 / (varPort * varSp) else 0
      [⟨"Beta (vs S&P 500)", .num beta,
        some "How market-like the portfolio is", some (betaSentiment beta)⟩,
       ⟨"Alpha (vs benchmark)", .num annualizedAlpha,
        some "Excess return after accounting for beta", some (alphaSentiment annualizedAlpha)⟩,
       ⟨"Tracking error", .num trackingErr,
        some "How much you deviate from the benchmark", some .neutral⟩,
       ⟨"Information ratio", .num infoRatio,
        some "Active return ÷ tracking error", some (infoRatioSentiment infoRatio)⟩,
       ⟨"R²", .num r2,
        some "How much movement is explained by benchmark", some .neutral⟩]
    else
      [⟨"Beta (vs S&P 500)", .sentinel, some "Need aligned benchmark data", none⟩,
       ⟨"Alpha (vs benchmark)", .sentinel, some "Excess return after beta", none⟩,
       ⟨"Tracking error", .sentinel, some "Deviation from benchmark", none⟩,
       ⟨"Information ratio", .sentinel, some "Skill per unit of active risk", none⟩,
       ⟨"R²", .sentinel, some "Movement explained by benchmark", none⟩]
  else
    [⟨"Beta (vs S&P 500)", .sentinel, some "How market-like the portfolio is", none⟩,
     ⟨"Alpha (vs benchmark)", .sentinel, some "Excess return after beta", none⟩,
     ⟨"Tracking error", .sentinel, some "Deviation from benchmark", none⟩,
     ⟨"Information ratio", .sentinel, some "Skill per unit of active risk", none⟩,
     ⟨"R²", .sentinel, some "Movement explained by benchmark", none⟩]

/-- The `--- Tail risk ---` block.  `sorted` is the ascending sort of the
daily returns (the comparator `(a, b) => a - b`); the percentile indices are
`floor(n * 0.05)` and `floor(n * 0.01)`. -/
def tailRatios (data : List PricePoint) : List Ratio :=
  if data.length ≥ 2 then
    let values := data.map (·.valueUSD)
    let returns := dailyReturns values
    let sorted := returns.mergeSort (fun a b => decide (a ≤ b))
    let var95 := (sorted.get? (Int.toNat ⌊(sorted.length : ℝ) * 0.05⌋)).getD 0
    let var99 := (sorted.get? (Int.toNat ⌊(sorted.length : ℝ) * 0.01⌋)).getD 0
    let worst5 := sorted.take (Int.toNat ⌈(sorted.length : ℝ) * 0.05⌉)
    let cvar := if worst5.length > 0 then worst5.sum / worst5.length else 0
    let mean := fMean returns
    let n := returns.length
    let m2 := ((returns.map (fun r => (r - mean) ^ 2)).sum) / (n : ℝ)
    let m3 := ((returns.map (fun r => (r - mean) ^ 3)).sum) / (n : ℝ)
    let m4 := ((returns.map (fun r => (r - mean) ^ 4)).sum) / (n : ℝ)
    let skewness := if m2 > 0 then m3 / (m2 ^ (1.5 : ℝ)) else 0
    let kurtosis := if m2 > 0 then m4 / (m2 * m2) - 3 else 0
    [⟨"VaR (95%)", .num var95,
      some "Expected worst loss, most of the time", some (varSentiment var95)⟩,
     ⟨"VaR (99%)", .num var99,
      some "Expected worst loss, most of the time", some (varSentiment var99)⟩,
     ⟨"CVaR / Expected Shortfall", .num cvar,
      some "Average loss in worst tail", some (cvarSentiment cvar)⟩,
     ⟨"Skewness", .num skewness, some "Left tails / asymmetry", some (skewnessSentiment skewness)⟩,
     ⟨"Kurtosis", .num kurtosis, some "Fat tails", some (kurtosisSentiment kurtosis)⟩]
  else
    [⟨"VaR (95%)", .sentinel, some "Expected worst loss", none⟩,
     ⟨"VaR (99%)", .sentinel, some "Expected worst loss", none⟩,
     ⟨"CVaR / Expected Shortfall", .sentinel, some "Average loss in worst tail", none⟩,
     ⟨"Skewness", .sentinel, some "Left tails", none⟩,
     ⟨"Kurtosis", .sentinel, some "Fat tails", none⟩]

/-- The `byClass` accumulation: total holding value of one asset class. -/
def byClassValue (holdings : List Holding) (c : AssetClass) : ℝ :=
  ((holdings.filter (fun h => h.assetClass == c)).map (·.valueUSD)).sum

/-- The holding weights `holdings.map((h) => h.valueUSD / total)`. -/
def weightsOf (holdings : List Holding) (total : ℝ) : List ℝ :=
  holdings.map (fun h => h.valueUSD / total)

/-- `hhi = weights.reduce((s, w) => s + w * w, 0)`. -/
def hhiOf (holdings : List Holding) (total : ℝ) : ℝ :=
  ((weightsOf holdings total).map (fun w => w * w)).sum

/-- `effectiveN = hhi > 0 ? 1 / hhi : 0`. -/
def effNOf (holdings : List Holding) (total : ℝ) : ℝ :=
  if hhiOf holdings total > 0 then 1 / hhiOf holdings total else 0

/-- The `--- Concentration & diversification ---` block. -/
def concRatios (holdings : List Holding) (total : ℝ) : List Ratio :=
  if total > 0 ∧ holdings.length > 0 then
    let hhi := hhiOf holdings total
    let effectiveN := effNOf holdings total
    let sorted := holdings.mergeSort (fun a b => decide (b.valueUSD ≤ a.valueUSD))
    let top5 := ((sorted.take 5).map (·.valueUSD)).sum
    let top10 := ((sorted.take 10).map (·.valueUSD)).sum
    let maxHolding := ((sorted.head?.map (·.valueUSD)).getD 0)
    [⟨"HHI (concentration)", .num hhi,
      some "Herfindahl-Hirschman Index", some (hhiSentiment hhi)⟩,
     ⟨"Effective # of holdings", .num effectiveN,
      some "Concentration score", some (effectiveNSentiment effectiveN)⟩,
     ⟨"Top holding %", .num (maxHolding / total), none,
      some (topHoldingPctSentiment (maxHolding / total))⟩,
     ⟨"Top 5 holding %", .num (top5 / total), none, some (top5PctSentiment (top5 / total))⟩,
     ⟨"Top 10 holding %", .num (top10 / total), none, some (top10PctSentiment (top10 / total))⟩,
     ⟨"Sector / country concentration", .sentinel, some "Requires asset classification", none⟩,
     ⟨"Avg pairwise correlation", .sentinel, some "Requires individual asset returns", none⟩]
  else
    [⟨"HHI", .sentinel, some "Concentration index", none⟩,
     ⟨"Effective # of holdings", .sentinel, some "Concentration score", none⟩,
     ⟨"Top holding %", .sentinel, none, none⟩,
     ⟨"Top 5 holding %", .sentinel, none, none⟩,
     ⟨"Top 10 holding %", .sentinel, none, none⟩,
     ⟨"Sector / country concentration", .sentinel, some "Requires classification", none⟩,
     ⟨"Avg pairwise correlation", .sentinel, some "Requires asset returns", none⟩]

/-- The `--- Allocation ---` block (no sentiments in the source). -/
def allocRatios (holdings : List Holding) (total : ℝ) : List Ratio :=
  if total > 0 then
    [⟨"Equity %", .num (byClassValue holdings .stocks / total), none, none⟩,
     ⟨"Bond %", .num (byClassValue holdings .bonds / total), none, none⟩,
     ⟨"Cash %", .num (byClassValue holdings .cash / total), none, none⟩]
    ++ (if byClassValue holdings .crypto > 0 then
          [⟨"Crypto %", .num (byClassValue holdings .crypto / total), none, none⟩]
        else [])
  else []

/-- The `--- Risk (existing Volatility, Sharpe) ---` block. -/
def volRatios (data : List PricePoint) : List Ratio :=
  if data.length ≥ 2 then
    let values := data.map (·.valueUSD)
    let vol := annualizedVol (dailyReturns values)
    let sharpe := if vol > 0 then (cagrOf values - RISK_FREE_RATE) / vol else 0
    [⟨"Volatility (ann.)", .num vol, none, some (volSentiment vol)⟩,
     ⟨"Sharpe ratio", .num sharpe, none, some (sharpeFamily sharpe)⟩]
  else
    [⟨"Volatility (ann.)", .sentinel, none, none⟩,
     ⟨"Sharpe ratio", .sentinel, none, none⟩]

/-- The `--- Practical metrics ---` block. -/
def practicalRatios (holdings : List Holding) (total : ℝ) : List Ratio :=
  (if total > 0 then
    [⟨"Liquidity score (est.)",
      .num ((byClassValue holdings .cash + byClassValue holdings .bonds * 0.8) / total),
      some "% in assets you can sell same-day",
      some (liquiditySentiment
        ((byClassValue holdings .cash + byClassValue holdings .bonds * 0.8) / total))⟩]
   else [])
  ++ [⟨"Turnover", .sentinel, some "Requires trade history", none⟩,
      ⟨"Fee drag", .sentinel, some "Weighted expense ratio + trading costs", none⟩,
      ⟨"Tax drag (est.)", .sentinel, some "Requires lot tracking", none⟩]

/-- The assembled, unfiltered section list of `computeRatioSections`. -/
def rawSections (profile : UserProfile) (ph : PortfolioPriceHistory) : List RatioSection :=
  let holdings := profile.portfolio.holdings
  let total := profile.portfolio.totals.totalValueUSD
  let data := ph.data
  let sp500 := ph.sp500.getD []
  [⟨"return-quality", "Return quality",
    some "How fast did it grow per year? Time-weighted vs money-weighted. Rolling returns.",
    returnQualityRatios data⟩,
   ⟨"risk-sharpe-misses", "Risk that Sharpe misses",
    some "Sortino, downside deviation, Calmar, ulcer index", riskRatios data⟩,
   ⟨"market-sensitivity", "Market sensitivity & benchmark skill",
    some "Beta, alpha, tracking error, information ratio, R²", marketRatios data sp500⟩,
   ⟨"tail-risk", "Tail risk", some "VaR, CVaR, skewness, kurtosis", tailRatios data⟩,
   ⟨"concentration", "Concentration & diversification",
    some "HHI, effective holdings, top 5/10, sector concentration", concRatios holdings total⟩,
   ⟨"allocation", "Asset allocation", none, allocRatios holdings total⟩,
   ⟨"volatility", "Volatility & Sharpe", none, volRatios data⟩,
   ⟨"practical", "Practical metrics",
    some "Liquidity, turnover, fees, tax drag", practicalRatios holdings total⟩]

/-- `computeRatioSections` of the source: the assembled sections, with every
sentinel ratio removed and every then-empty section dropped. -/
def computeRatioSections (profile : UserProfile) (ph : PortfolioPriceHistory) :
    List RatioSection :=
  ((rawSections profile ph).map
    (fun s => ⟨s.id, s.title, s.description, s.ratios.filter (fun r => !r.value.isSentinel)⟩)).filter
    (fun s => s.ratios.length > 0)

end

/-- Example price series of the spec scenario `[100000, 110000, 99000, 120000]`. -/
def egSeries4 : List PricePoint :=
  [⟨"2024-01-02", 100000⟩, ⟨"2024-01-03", 110000⟩, ⟨"2024-01-04", 99000⟩,
   ⟨"2024-01-05", 120000⟩]

/-- Example trivial user profile (no holdings, zero total). -/
def egProfile0 : UserProfile :=
  ⟨"u", "n", "2024-02-01", "USD", 0, ⟨"p", "", [], ⟨0⟩, ⟨0, 0, 0, 0⟩⟩⟩

/-- Example price history wrapping `egSeries4`, without benchmarks. -/
def egHist4 : PortfolioPriceHistory := ⟨egSeries4, none, none⟩

/-- Example two-point increasing price series. -/
def egSeries2 : List PricePoint := [⟨"2024-01-02", 100⟩, ⟨"2024-01-03", 110⟩]

/-- Example price history with `egSeries2` both as portfolio and benchmark
(so the aligned benchmark returns coincide with the portfolio returns). -/
def egHist2 : PortfolioPriceHistory := ⟨egSeries2, some egSeries2, none⟩

/-- Example benchmark series on the dates of `egSeries2` with a single
return, hence zero benchmark variance. -/
def egSp2 : List PricePoint := [⟨"2024-01-02", 50⟩, ⟨"2024-01-03", 55⟩]

/-- Example price history with `egSeries2` against benchmark `egSp2`. -/
def egHist2b : PortfolioPriceHistory := ⟨egSeries2, some egSp2, none⟩

/-- Example series with exactly one below-peak point. -/
def egSeriesDip : List PricePoint :=
  [⟨"2024-01-02", 2⟩, ⟨"2024-01-03", 1⟩, ⟨"2024-01-04", 2⟩]

/-- Example price series with exactly 252 points (the rolling-return
threshold length). -/
def egSeries252 : List PricePoint := List.replicate 252 ⟨"2024-01-02", 100⟩

/-- Example price history wrapping `egSeries252`, without benchmarks. -/
def egHist252 : PortfolioPriceHistory := ⟨egSeries252, none, none⟩

noncomputable section

/-- Spec-side definition (for the max-drawdown-duration claim): the running
state is the running peak, the length `cur` of the current contiguous run of
below-peak points, and the longest run length `best` seen so far; a new peak
(or a value equal to the peak) ends the run. -/
def runsGo : List ℝ → ℝ → ℕ → ℕ → ℕ
  | [], _, _, best => best
  | v :: rest, peak, cur, best =>
      let peak2 := max peak v
      if v < peak2 then runsGo rest peak2 (cur + 1) (max best (cur + 1))
      else runsGo rest peak2 0 best

/-- Spec-side definition: the length (in sample count) of the longest
contiguous run of points strictly below the running peak, the run resetting
whenever the running peak is reached again. -/
def longestBelowPeakRun (values : List ℝ) : ℕ :=
  runsGo values (values.headD 0) 0 0

end

/-- Example price history wrapping `egSeriesDip`, without benchmarks. -/
def egHistDip : PortfolioPriceHistory := ⟨egSeriesDip, none, none⟩

/-- Example holdings of the spec scenario: 500 cash and 1500 stocks. -/
def egHoldings2 : List Holding :=
  [⟨"cash-usd", "Cash", .cash, none, 500⟩, ⟨"stk", "Stocks", .stocks, none, 1500⟩]

/-- Value of a hexadecimal digit character, `none` otherwise. -/
def hexVal (c : Char) : Option ℕ :=
  if 48 ≤ c.toNat ∧ c.toNat ≤ 57 then some (c.toNat - 48)
  else if 65 ≤ c.toNat ∧ c.toNat ≤ 70 then some (c.toNat - 55)
  else if 97 ≤ c.toNat ∧ c.toNat ≤ 102 then some (c.toNat - 87)
  else none

/-- Uppercase hexadecimal digit for a value below 16 (as `encodeURIComponent`
emits). -/
def hexDigit (n : ℕ) : Char :=
  if n < 10 then Char.ofNat ('0'.toNat + n) else Char.ofNat ('A'.toNat + n - 10)

/-- UTF-8 bytes of a Unicode code point. -/
def utf8Bytes (n : ℕ) : List ℕ :=
  if n < 128 then [n]
  else if n < 2048 then [192 + n / 64, 128 + n % 64]
  else if n < 65536 then [224 + n / 4096, 128 + n / 64 % 64, 128 + n % 64]
  else [240 + n / 262144, 128 + n / 4096 % 64, 128 + n / 64 % 64, 128 + n % 64]

/-- The `%HH` escape of one byte. -/
def pctEncodeByte (b : ℕ) : List Char := ['%', hexDigit (b / 16), hexDigit (b % 16)]

/-- The unreserved characters of `encodeURIComponent` (ECMA-262
`uriUnescaped`): ASCII alphanumerics and `- _ . ! ~ * ' ( )`. -/
def isUnreserved (c : Char) : Bool :=
  c.isAlpha || c.isDigit ||
    (c == '-' || c == '_' || c == '.' || c == '!' || c == '~' || c == '*' ||
     c == Char.ofNat 39 || c == '(' || c == ')')

/-- Modelled from the ECMAScript builtin `encodeURIComponent`, at the
character-list level: unreserved characters pass through, every other
character is written as the `%HH` escapes of its UTF-8 bytes. -/
def encodeURIComponent (s : List Char) : List Char :=
  s.flatMap fun c =>
    if isUnreserved c then [c] else (utf8Bytes c.toNat).flatMap pctEncodeByte

/-- First pass of `decodeURIComponent`: turn every `%HH` escape into its
byte (`Sum.inl`), leaving other characters (`Sum.inr`) alone.  On malformed
escapes (where the builtin would throw a `URIError`) this total model keeps
the characters unchanged. -/
def pctTokens : List Char → List (Sum ℕ Char)
  | [] => []
  | '%' :: a :: b :: rest =>
      match hexVal a, hexVal b with
      | some x, some y => Sum.inl (16 * x + y) :: pctTokens rest
      | _, _ => Sum.inr '%' :: Sum.inr a :: Sum.inr b :: pctTokens rest
  | c :: rest => Sum.inr c :: pctTokens rest

/-- Number of UTF-8 continuation bytes announced by a lead byte. -/
def seqLen (b0 : ℕ) : ℕ :=
  if b0 < 194 then 0 else if b0 < 224 then 1 else if b0 < 240 then 2 else 3

/-- Take `k` escape bytes from the front of the token stream (failing on a
bare character or exhaustion); the returned suffix carries its length bound
for termination. -/
def takeCont : (k : ℕ) → (l : List (Sum ℕ Char)) →
    Option (List ℕ × {r : List (Sum ℕ Char) // r.length ≤ l.length})
  | 0, l => some ([], ⟨l, le_refl _⟩)
  | k + 1, Sum.inl b :: rest =>
      match takeCont k rest with
      | some (bs, ⟨r, hr⟩) => some (b :: bs, ⟨r, by simpa using Nat.le_succ_of_le hr⟩)
      | none => none
  | _ + 1, _ => none

/-- Code point of a UTF-8 sequence from its lead byte and continuation
bytes. -/
def decodeSeq (b0 : ℕ) : List ℕ → ℕ
  | [] => b0
  | [b1] => (b0 - 192) * 64 + (b1 - 128)
  | [b1, b2] => (b0 - 224) * 4096 + (b1 - 128) * 64 + (b2 - 128)
  | [b1, b2, b3] => (b0 - 240) * 262144 + (b1 - 128) * 4096 + (b2 - 128) * 64 + (b3 - 128)
  | _ => b0

/-- Second pass of `decodeURIComponent`: assemble runs of escape bytes as
UTF-8, each lead byte consuming the number of continuation bytes it
announces; a byte whose continuations are missing is kept as its own code
point. -/
def utf8Assemble : List (Sum ℕ Char) → List Char
  | [] => []
  | Sum.inr c :: rest => c :: utf8Assemble rest
  | Sum.inl b0 :: rest =>
      match takeCont (seqLen b0) rest with
      | some (bs, ⟨rest2, _⟩) => Char.ofNat (decodeSeq b0 bs) :: utf8Assemble rest2
      | none => Char.ofNat b0 :: utf8Assemble rest
  termination_by l => l.length
  decreasing_by all_goals simp_wf <;> omega

/-- Modelled from the ECMAScript builtin `decodeURIComponent`, at the
character-list level: maximal runs of `%HH` escapes are decoded as UTF-8. -/
def decodeURIComponent (l : List Char) : List Char := utf8Assemble (pctTokens l)

/-- JavaScript `String.prototype.split` with a one-character separator:
`"".split(",")` is `[""]`, and separators at the ends produce empty chunks. -/
def jsSplit (sep : Char) : List Char → List (List Char)
  | [] => [[]]
  | c :: rest =>
      if c = sep then [] :: jsSplit sep rest
      else
        match jsSplit sep rest with
        | g :: gs => (c :: g) :: gs
        | [] => [[c]]

/-- JavaScript `String.prototype.lastIndexOf` for one character: the index
of the last occurrence, `-1` if absent. -/
def jsLastIndexOf (c : Char) : List Char → ℤ
  | [] => -1
  | a :: rest =>
      let r := jsLastIndexOf c rest
      if r ≥ 0 then r + 1
      else if a = c then 0 else -1

/-- JavaScript `String.prototype.slice` with two arguments: negative indices
count from the end, and both ends are clamped to the string. -/
def jsSlice2 (l : List Char) (a b : ℤ) : List Char :=
  let n : ℤ := l.length
  let a2 := if a < 0 then max 0 (n + a) else min a n
  let b2 := if b < 0 then max 0 (n + b) else min b n
  (l.take b2.toNat).drop a2.toNat

/-- JavaScript `String.prototype.slice` with one argument. -/
def jsSliceFrom (l : List Char) (a : ℤ) : List Char :=
  jsSlice2 l a l.length

/-- Decimal digit characters of a natural number, most significant first,
accumulated onto `acc` (empty for `0`). -/
def natToCharsAux (n : ℕ) (acc : List Char) : List Char :=
  if h : n = 0 then acc
  else natToCharsAux (n / 10) (Char.ofNat (n % 10 + '0'.toNat) :: acc)
  termination_by n
  decreasing_by exact Nat.div_lt_self (Nat.pos_of_ne_zero h) (by omega)

/-- Decimal rendering of a natural number (`"0"` for zero). -/
def natToChars (n : ℕ) : List Char :=
  if n = 0 then ['0'] else natToCharsAux n []

/-- Value of one decimal digit character. -/
def digitVal (c : Char) : Option ℕ :=
  if '0' ≤ c ∧ c ≤ '9' then some (c.toNat - '0'.toNat) else none

/-- Accumulating decimal parse; fails on any non-digit. -/
def digitsValAux : List Char → ℕ → Option ℕ
  | [], acc => some acc
  | c :: rest, acc =>
      match digitVal c with
      | some d => digitsValAux rest (10 * acc + d)
      | none => none

/-- Decimal parse of a nonempty all-digit string. -/
def digitsVal (l : List Char) : Option ℕ :=
  if l.isEmpty then none else digitsValAux l 0

/-- Multiplicity of the prime `p` in `n` (0 for `n = 0` or `p ≤ 1`). -/
def padicCount (p n : ℕ) : ℕ :=
  if h : 1 < p ∧ n ≠ 0 ∧ n % p = 0 then padicCount p (n / p) + 1 else 0
  termination_by n
  decreasing_by exact Nat.div_lt_self (Nat.pos_of_ne_zero h.2.1) h.1

/-- The decimal exponent of a denominator of the form `2^a * 5^b`: the least
`e` with `d ∣ 10^e`. -/
def decExp (d : ℕ) : ℕ := max (padicCount 2 d) (padicCount 5 d)

/-- The `e` fractional digits of `m < 10^e`, left-padded with zeros. -/
def fracPad (m e : ℕ) : List Char :=
  List.replicate (e - (natToChars m).length) '0' ++ natToChars m

/-- Modelled from the ECMAScript number-to-string conversion, restricted to
plain decimal notation: the exact decimal rendering of a rational whose
denominator divides a power of ten (every finite JavaScript number printed
without exponent notation has this form). -/
def ratToChars (q : ℚ) : List Char :=
  let sign : List Char := if q < 0 then ['-'] else []
  let n := q.num.natAbs
  let e := decExp q.den
  let m := n * 10 ^ e / q.den
  if e = 0 then sign ++ natToChars m
  else sign ++ natToChars (m / 10 ^ e) ++ '.' :: fracPad (m % 10 ^ e) e

/-- Parse of an unsigned plain decimal numeral (`"5"`, `"5."`, `".5"`,
`"1.25"`); `none` models `NaN`. -/
def parseUnsigned (l : List Char) : Option ℚ :=
  match jsSplit '.' l with
  | [intPart] => (digitsVal intPart).map (fun n => (n : ℚ))
  | [intPart, fracPart] =>
      if intPart.isEmpty && fracPart.isEmpty then none
      else
        match (if intPart.isEmpty then some 0 else digitsVal intPart),
              (if fracPart.isEmpty then some 0 else digitsVal fracPart) with
        | some i, some f => some ((i : ℚ) + (f : ℚ) / 10 ^ fracPart.length)
        | _, _ => none
  | _ => none

/-- Modelled from the ECMAScript builtin `Number(..)`, restricted to plain
decimal notation: the empty string is `0`, an optional sign precedes the
digits, anything else is `NaN` (`none`). -/
def jsNumber (l : List Char) : Option ℚ :=
  match l with
  | [] => some 0
  | '-' :: r => (parseUnsigned r).map (fun q => -q)
  | '+' :: r => parseUnsigned r
  | _ => parseUnsigned l

/-- `parseHoldings` of the dashboard page: split the wire string on commas,
split each pair at the last colon, URI-decode the asset id, parse the value
(`Number(..) || 0` defaults to 0), and drop non-positive values. -/
def parseHoldings (h : List Char) : List (List Char × ℚ) :=
  ((jsSplit ',' h).map fun pair =>
    let sep := jsLastIndexOf ':' pair
    let assetId := decodeURIComponent (jsSlice2 pair 0 sep)
    let valueUSD : ℚ :=
      match jsNumber (jsSliceFrom pair (sep + 1)) with
      | some q => q
      | none => 0
    (assetId, valueUSD)).filter
    (fun p => decide (0 < p.2))

/-- The select page's encoding of holdings for the dashboard URL:
`[...selected].map((id) => encodeURIComponent(id) + ":" + values[id]).join(",")`. -/
def encodeHoldings (pairs : List (List Char × ℚ)) : List Char :=
  List.intercalate [','] (pairs.map fun p => encodeURIComponent p.1 ++ ':' :: ratToChars p.2)

/-- C4: every section of the engine output has at least one ratio, no ratio
in the output carries the sentinel value, and (hence) no sentinel ratio in
the output carries a sentiment: the final pass removes every sentinel ratio
and drops every section left empty. -/
theorem claim4_output_filter_invariants (P : UserProfile) (H : PortfolioPriceHistory) :
    ((computeRatioSections P H).all fun s =>
      !s.ratios.isEmpty
      && s.ratios.all (fun r => !r.value.isSentinel)
      && s.ratios.all (fun r => !r.value.isSentinel || r.sentiment.isNone)) = true := by
  rw [List.all_eq_true]
  intro s hs
  unfold computeRatioSections at hs
  rw [List.mem_filter] at hs
  obtain ⟨hmem, hlen⟩ := hs
  rw [List.mem_map] at hmem
  obtain ⟨t, -, rfl⟩ := hmem
  simp only [Bool.and_eq_true, List.all_eq_true]
  refine ⟨⟨?_, ?_⟩, ?_⟩
  · have : (t.ratios.filter (fun r => !r.value.isSentinel)).length > 0 := by
      simpa using hlen
    simp only [Bool.not_eq_true', List.isEmpty_eq_false]
    exact List.length_pos.mp this
  · intro r hr
    exact (List.mem_filter.mp hr).2
  · intro r hr
    simp [(List.mem_filter.mp hr).2]

/-- C3: for a portfolio price series of fewer than 2 points, every metric of
the return-quality, risk, market-sensitivity and tail-risk blocks is the
sentinel with no sentiment, and consequently none of these four sections
appears in the engine output, regardless of holdings or benchmark data. -/
theorem claim3_short_series_all_sentinel (P : UserProfile) (H : PortfolioPriceHistory)
    (hlen : H.data.length < 2) :
    (∀ r ∈ returnQualityRatios H.data ++ riskRatios H.data
        ++ marketRatios H.data (H.sp500.getD []) ++ tailRatios H.data,
      r.value = RVal.sentinel ∧ r.sentiment = none)
    ∧ ∀ s ∈ computeRatioSections P H,
        s.id ≠ "return-quality" ∧ s.id ≠ "risk-sharpe-misses"
        ∧ s.id ≠ "market-sensitivity" ∧ s.id ≠ "tail-risk" := by
  have h2 : ¬ H.data.length ≥ 2 := by omega
  have h252 : ¬ H.data.length ≥ TRADING_DAYS_PER_YEAR := by
    simp only [TRADING_DAYS_PER_YEAR]; omega
  have hmkt : ¬ (H.data.length ≥ 2 ∧ (H.sp500.getD []).length > 0) := fun h => h2 h.1
  have hrq : returnQualityRatios H.data =
      [⟨"CAGR / Annualized return", .sentinel, some "How fast did it grow per year?", none⟩,
       ⟨"TWR vs IRR", .sentinel,
        some "Time-weighted vs Money-weighted return (needs deposit/withdrawal data)", none⟩,
       ⟨"Rolling 1Y return", .sentinel, some "Need ≥1 year of data", none⟩,
       ⟨"Rolling 3Y return", .sentinel, some "Need ≥3 years of data", none⟩,
       ⟨"Rolling 5Y return", .sentinel, some "Need ≥5 years of data", none⟩] := by
    simp only [returnQualityRatios]
    rw [if_neg h2, if_neg h252]
    rfl
  have hrk : riskRatios H.data =
      [⟨"Sortino ratio", .sentinel,
        some "Like Sharpe, but only penalizes downside volatility", none⟩,
       ⟨"Downside deviation", .sentinel, some "Risk of bad outcomes", none⟩,
       ⟨"Calmar ratio", .sentinel, some "Annualized return ÷ max drawdown", none⟩,
       ⟨"Max drawdown", .sentinel, none, none⟩,
       ⟨"Ulcer index", .sentinel, some "How deep underwater", none⟩,
       ⟨"Max drawdown duration (days)", .sentinel, some "How long underwater", none⟩] := by
    simp only [riskRatios]
    rw [if_neg h2]
  have hmk : marketRatios H.data (H.sp500.getD []) =
      [⟨"Beta (vs S&P 500)", .sentinel, some "How market-like the portfolio is", none⟩,
       ⟨"Alpha (vs benchmark)", .sentinel, some "Excess return after beta", none⟩,
       ⟨"Tracking error", .sentinel, some "Deviation from benchmark", none⟩,
       ⟨"Information ratio", .sentinel, some "Skill per unit of active risk", none⟩,
       ⟨"R²", .sentinel, some "Movement explained by benchmark", none⟩] := by
    simp only [marketRatios]
    rw [if_neg hmkt]
  have htl : tailRatios H.data =
      [⟨"VaR (95%)", .sentinel, some "Expected worst loss", none⟩,
       ⟨"VaR (99%)", .sentinel, some "Expected worst loss", none⟩,
       ⟨"CVaR / Expected Shortfall", .sentinel, some "Average loss in worst tail", none⟩,
       ⟨"Skewness", .sentinel, some "Left tails", none⟩,
       ⟨"Kurtosis", .sentinel, some "Fat tails", none⟩] := by
    simp only [tailRatios]
    rw [if_neg h2]
  constructor
  · intro r hr
    rw [hrq, hrk, hmk, htl] at hr
    fin_cases hr <;> exact ⟨rfl, rfl⟩
  · intro s hs
    unfold computeRatioSections at hs
    rw [List.mem_filter] at hs
    obtain ⟨hmem, hne⟩ := hs
    rw [List.mem_map] at hmem
    obtain ⟨t, ht, rfl⟩ := hmem
    unfold rawSections at ht
    simp only [List.mem_cons, List.not_mem_nil, or_false] at ht
    rcases ht with rfl | rfl | rfl | rfl | rfl | rfl | rfl | rfl
    · exfalso
      simp [hrq, RVal.isSentinel] at hne
    · exfalso
      simp [hrk, RVal.isSentinel] at hne
    · exfalso
      simp [hmk, RVal.isSentinel] at hne
    · exfalso
      simp [htl, RVal.isSentinel] at hne
    · refine ⟨?_, ?_, ?_, ?_⟩ <;> simp
    · refine ⟨?_, ?_, ?_, ?_⟩ <;> simp
    · refine ⟨?_, ?_, ?_, ?_⟩ <;> simp
    · refine ⟨?_, ?_, ?_, ?_⟩ <;> simp

/-- Witness for C3 at a concrete empty price series. -/
theorem claim3_short_series_all_sentinel_witness :
    (∀ r ∈ returnQualityRatios ([] : List PricePoint) ++ riskRatios []
        ++ marketRatios [] ((none : Option (List PricePoint)).getD []) ++ tailRatios [],
      r.value = RVal.sentinel ∧ r.sentiment = none)
    ∧ ∀ s ∈ computeRatioSections
        ⟨"u", "n", "2024-01-01", "USD", 0, ⟨"p", "", [], ⟨0⟩, ⟨0, 0, 0, 0⟩⟩⟩
        ⟨[], none, none⟩,
        s.id ≠ "return-quality" ∧ s.id ≠ "risk-sharpe-misses"
        ∧ s.id ≠ "market-sensitivity" ∧ s.id ≠ "tail-risk" :=
  claim3_short_series_all_sentinel
    ⟨"u", "n", "2024-01-01", "USD", 0, ⟨"p", "", [], ⟨0⟩, ⟨0, 0, 0, 0⟩⟩⟩
    ⟨[], none, none⟩ (by simp)

/-- C5: for a series of `n ≥ 2` price points with nonzero first value, the
reported CAGR is `(last/first) ^ (252/n) - 1` with `n` the number of price
points, and this ratio is the first entry of the first (return-quality)
section of the engine output. -/
theorem claim5_cagr_formula (P : UserProfile) (H : PortfolioPriceHistory)
    (hlen : H.data.length ≥ 2)
    (_hfirst : (H.data.map (·.valueUSD)).headD 0 ≠ 0) :
    cagrOf (H.data.map (·.valueUSD)) =
      ((H.data.map (·.valueUSD)).getLastD 0 / (H.data.map (·.valueUSD)).headD 0)
        ^ ((252 : ℝ) / H.data.length) - 1
    ∧ ∃ tl rest, computeRatioSections P H =
        (⟨"return-quality", "Return quality",
          some "How fast did it grow per year? Time-weighted vs money-weighted. Rolling returns.",
          ⟨"CAGR / Annualized return", .num (cagrOf (H.data.map (·.valueUSD))),
           some "How fast did it grow per year?",
           some (returnSentiment (cagrOf (H.data.map (·.valueUSD))))⟩ :: tl⟩ : RatioSection)
          :: rest := by
  constructor
  · simp [cagrOf, TRADING_DAYS_PER_YEAR]
  · obtain ⟨tl, htl2⟩ : ∃ tl,
        (returnQualityRatios H.data).filter (fun r => !r.value.isSentinel) =
        (⟨"CAGR / Annualized return", .num (cagrOf (H.data.map (·.valueUSD))),
          some "How fast did it grow per year?",
          some (returnSentiment (cagrOf (H.data.map (·.valueUSD))))⟩ : Ratio) :: tl := by
      simp only [returnQualityRatios]
      rw [if_pos hlen]
      exact ⟨_, rfl⟩
    refine ⟨tl, (computeRatioSections P H).tail, (List.cons_head?_tail ?_).symm⟩
    rw [Option.mem_def]
    simp only [computeRatioSections, rawSections, List.map_cons]
    rw [List.filter_cons_of_pos (by simp [htl2])]
    simp only [List.head?_cons, Option.some_inj]
    congr 1

/-- Witness for C5 on the spec scenario series: `(120000/100000)^(252/4)-1`. -/
theorem claim5_cagr_formula_witness :
    cagrOf (egHist4.data.map (·.valueUSD)) =
      ((120000 : ℝ) / 100000) ^ ((252 : ℝ) / 4) - 1 := by
  have h := claim5_cagr_formula egProfile0 egHist4
    (by simp [egHist4, egSeries4]) (by simp [egHist4, egSeries4])
  rw [h.1]
  simp [egHist4, egSeries4]

/-- A non-sentinel ratio of an assembled section survives the final pass:
its section appears in the engine output (with the same id) and still
contains the ratio. -/
theorem mem_output_of_mem_raw (P : UserProfile) (H : PortfolioPriceHistory)
    (t : RatioSection) (ht : t ∈ rawSections P H) (r : Ratio) (hr : r ∈ t.ratios)
    (hv : (!r.value.isSentinel) = true) :
    ∃ s ∈ computeRatioSections P H, s.id = t.id ∧ r ∈ s.ratios := by
  have hrf : r ∈ t.ratios.filter (fun x => !x.value.isSentinel) :=
    List.mem_filter.mpr ⟨hr, hv⟩
  refine ⟨⟨t.id, t.title, t.description, t.ratios.filter (fun x => !x.value.isSentinel)⟩,
    ?_, rfl, hrf⟩
  unfold computeRatioSections
  rw [List.mem_filter]
  refine ⟨List.mem_map.mpr ⟨t, ht, rfl⟩, ?_⟩
  simpa using List.length_pos.mpr (List.ne_nil_of_mem hrf)

/-- C1 (amended): whenever the denominator of a guarded ratio division is
zero — downside deviation for Sortino, max drawdown for Calmar, tracking
error for the information ratio, zero variance for R² — the engine reports
that metric as the numeric value `0` (with the sentiment of `0`), not as
the sentinel, and the metric therefore stays in the output. -/
theorem claim1_zero_denominator_yields_zero (P : UserProfile) (H : PortfolioPriceHistory)
    (hlen : H.data.length ≥ 2) :
    (downsideDev (dailyReturns (H.data.map (·.valueUSD))) = 0 →
      ∃ s ∈ computeRatioSections P H, s.id = "risk-sharpe-misses" ∧
        (⟨"Sortino ratio", .num 0,
          some "Like Sharpe, but only penalizes downside volatility",
          some Sentiment.slightlyNegative⟩ : Ratio) ∈ s.ratios)
    ∧ (maxDrawdown (H.data.map (·.valueUSD)) = 0 →
      ∃ s ∈ computeRatioSections P H, s.id = "risk-sharpe-misses" ∧
        (⟨"Calmar ratio", .num 0,
          some "Annualized return ÷ max drawdown (pain vs gain)",
          some Sentiment.slightlyNegative⟩ : Ratio) ∈ s.ratios)
    ∧ ((H.sp500.getD []).length > 0 →
       (alignedPairs H.data (H.sp500.getD [])).length ≥ 2 →
       trackingErrOf (dailyReturns ((alignedPairs H.data (H.sp500.getD [])).map (·.1)))
         (dailyReturns ((alignedPairs H.data (H.sp500.getD [])).map (·.2))) = 0 →
      ∃ s ∈ computeRatioSections P H, s.id = "market-sensitivity" ∧
        (⟨"Information ratio", .num 0, some "Active return ÷ tracking error",
          some Sentiment.neutral⟩ : Ratio) ∈ s.ratios)
    ∧ ((H.sp500.getD []).length > 0 →
       (alignedPairs H.data (H.sp500.getD [])).length ≥ 2 →
       popVar (dailyReturns ((alignedPairs H.data (H.sp500.getD [])).map (·.2))) = 0 →
      ∃ s ∈ computeRatioSections P H, s.id = "market-sensitivity" ∧
        (⟨"R²", .num 0, some "How much movement is explained by benchmark",
          some Sentiment.neutral⟩ : Ratio) ∈ s.ratios) := by
  have hsharpe0 : sharpeFamily 0 = Sentiment.slightlyNegative := by norm_num [sharpeFamily]
  have hcalmar0 : calmarSentiment 0 = Sentiment.slightlyNegative := by norm_num [calmarSentiment]
  have hinfo0 : infoRatioSentiment 0 = Sentiment.neutral := by norm_num [infoRatioSentiment]
  refine ⟨?_, ?_, ?_, ?_⟩
  · intro h
    refine mem_output_of_mem_raw P H ⟨"risk-sharpe-misses", "Risk that Sharpe misses",
      some "Sortino, downside deviation, Calmar, ulcer index", riskRatios H.data⟩
      (by simp [rawSections]) _ ?_ rfl
    show (⟨"Sortino ratio", .num 0,
      some "Like Sharpe, but only penalizes downside volatility",
      some Sentiment.slightlyNegative⟩ : Ratio) ∈ riskRatios H.data
    simp only [riskRatios]
    rw [if_pos hlen, h]
    norm_num [hsharpe0]
  · intro h
    refine mem_output_of_mem_raw P H ⟨"risk-sharpe-misses", "Risk that Sharpe misses",
      some "Sortino, downside deviation, Calmar, ulcer index", riskRatios H.data⟩
      (by simp [rawSections]) _ ?_ rfl
    show (⟨"Calmar ratio", .num 0,
      some "Annualized return ÷ max drawdown (pain vs gain)",
      some Sentiment.slightlyNegative⟩ : Ratio) ∈ riskRatios H.data
    simp only [riskRatios]
    rw [if_pos hlen, h]
    norm_num [hcalmar0]
  · intro hsp halign h
    refine mem_output_of_mem_raw P H ⟨"market-sensitivity",
      "Market sensitivity & benchmark skill",
      some "Beta, alpha, tracking error, information ratio, R²",
      marketRatios H.data (H.sp500.getD [])⟩
      (by simp [rawSections]) _ ?_ rfl
    show (⟨"Information ratio", .num 0, some "Active return ÷ tracking error",
      some Sentiment.neutral⟩ : Ratio) ∈ marketRatios H.data (H.sp500.getD [])
    simp only [marketRatios]
    rw [if_pos ⟨hlen, hsp⟩, if_pos halign, h]
    norm_num [hinfo0]
  · intro hsp halign h
    refine mem_output_of_mem_raw P H ⟨"market-sensitivity",
      "Market sensitivity & benchmark skill",
      some "Beta, alpha, tracking error, information ratio, R²",
      marketRatios H.data (H.sp500.getD [])⟩
      (by simp [rawSections]) _ ?_ rfl
    show (⟨"R²", .num 0, some "How much movement is explained by benchmark",
      some Sentiment.neutral⟩ : Ratio) ∈ marketRatios H.data (H.sp500.getD [])
    simp only [marketRatios]
    rw [if_pos ⟨hlen, hsp⟩, if_pos halign, h]
    norm_num

/-- Witness for C1 on the two-point series `[100, 110]` with itself as the
benchmark: there all four guarded denominators are zero. -/
theorem claim1_zero_denominator_yields_zero_witness :
    (∃ s ∈ computeRatioSections egProfile0 egHist2, s.id = "risk-sharpe-misses" ∧
       (⟨"Sortino ratio", .num 0,
         some "Like Sharpe, but only penalizes downside volatility",
         some Sentiment.slightlyNegative⟩ : Ratio) ∈ s.ratios)
    ∧ (∃ s ∈ computeRatioSections egProfile0 egHist2, s.id = "risk-sharpe-misses" ∧
       (⟨"Calmar ratio", .num 0,
         some "Annualized return ÷ max drawdown (pain vs gain)",
         some Sentiment.slightlyNegative⟩ : Ratio) ∈ s.ratios)
    ∧ (∃ s ∈ computeRatioSections egProfile0 egHist2, s.id = "market-sensitivity" ∧
       (⟨"Information ratio", .num 0, some "Active return ÷ tracking error",
         some Sentiment.neutral⟩ : Ratio) ∈ s.ratios)
    ∧ (∃ s ∈ computeRatioSections egProfile0 egHist2, s.id = "market-sensitivity" ∧
       (⟨"R²", .num 0, some "How much movement is explained by benchmark",
         some Sentiment.neutral⟩ : Ratio) ∈ s.ratios) := by
  have h := claim1_zero_denominator_yields_zero egProfile0 egHist2 (by simp [egHist2, egSeries2])
  have hvals : egHist2.data.map (·.valueUSD) = [(100 : ℝ), 110] := by
    simp [egHist2, egSeries2]
  have hdr : dailyReturns [(100 : ℝ), 110] = [(110 - 100) / 100] := by
    simp [dailyReturns]
  have hdde : downsideDev (dailyReturns (egHist2.data.map (·.valueUSD))) = 0 := by
    rw [hvals, hdr]
    norm_num [downsideDev, downsideVariance, List.filter_cons, Real.sqrt_zero]
  have hmdd : maxDrawdown (egHist2.data.map (·.valueUSD)) = 0 := by
    rw [hvals]
    norm_num [maxDrawdown, maxDrawdownGo, max_def, min_def]
  have hsp : (egHist2.sp500.getD []).length > 0 := by simp [egHist2, egSeries2]
  have halignedeq : alignedPairs egHist2.data (egHist2.sp500.getD []) =
      [((100 : ℝ), (100 : ℝ)), (110, 110)] := by
    simp [alignedPairs, spLookup, egHist2, egSeries2]
  have halign : (alignedPairs egHist2.data (egHist2.sp500.getD [])).length ≥ 2 := by
    rw [halignedeq]; simp
  have htr : trackingErrOf
      (dailyReturns ((alignedPairs egHist2.data (egHist2.sp500.getD [])).map (·.1)))
      (dailyReturns ((alignedPairs egHist2.data (egHist2.sp500.getD [])).map (·.2))) = 0 := by
    rw [halignedeq]
    norm_num [trackingErrOf, dailyReturns, Real.sqrt_zero]
  have hvarsp : popVar
      (dailyReturns ((alignedPairs egHist2.data (egHist2.sp500.getD [])).map (·.2))) = 0 := by
    rw [halignedeq]
    norm_num [popVar, dailyReturns, fMean]
  exact ⟨h.1 hdde, h.2.1 hmdd, h.2.2.1 hsp halign htr, h.2.2.2 hsp halign hvarsp⟩

/-- Counterexample input for C1: on the series `[100, 110]` the downside
deviation is `0`, yet the engine keeps a Sortino ratio with the numeric
value `0` (not the sentinel) in its output. -/
theorem claim1_zero_denominator_counterexample :
    downsideDev (dailyReturns (egHist2.data.map (·.valueUSD))) = 0
    ∧ RVal.num 0 ≠ RVal.sentinel
    ∧ ∃ s ∈ computeRatioSections egProfile0 egHist2, s.id = "risk-sharpe-misses" ∧
       (⟨"Sortino ratio", .num 0,
         some "Like Sharpe, but only penalizes downside volatility",
         some Sentiment.slightlyNegative⟩ : Ratio) ∈ s.ratios := by
  have hlen2 : egHist2.data.length ≥ 2 := by simp [egHist2, egSeries2]
  have hvals : egHist2.data.map (·.valueUSD) = [(100 : ℝ), 110] := by
    simp [egHist2, egSeries2]
  have hdr : dailyReturns [(100 : ℝ), 110] = [(110 - 100) / 100] := by
    simp [dailyReturns]
  have hdde : downsideDev (dailyReturns (egHist2.data.map (·.valueUSD))) = 0 := by
    rw [hvals, hdr]
    norm_num [downsideDev, downsideVariance, List.filter_cons, Real.sqrt_zero]
  have hsharpe0 : sharpeFamily 0 = Sentiment.slightlyNegative := by norm_num [sharpeFamily]
  refine ⟨hdde, by simp, ?_⟩
  refine mem_output_of_mem_raw egProfile0 egHist2 ⟨"risk-sharpe-misses",
    "Risk that Sharpe misses", some "Sortino, downside deviation, Calmar, ulcer index",
    riskRatios egHist2.data⟩ (by simp [rawSections]) _ ?_ rfl
  show (⟨"Sortino ratio", .num 0,
    some "Like Sharpe, but only penalizes downside volatility",
    some Sentiment.slightlyNegative⟩ : Ratio) ∈ riskRatios egHist2.data
  simp only [riskRatios]
  rw [if_pos hlen2, hdde]
  norm_num [hsharpe0]

/-- At a series length exactly equal to the rolling window `k`, the guard
passes but the referenced index `length - 1 - k` is `-1`: the read yields
`undefined` and the rolling return is the `NaN` marker. -/
theorem rollingReturn_at_exact_threshold (values : List ℝ) (k : ℕ)
    (h : values.length = k) (p : ℝ) :
    rollingReturn values k p = some none := by
  have hneg : ((values.length : ℤ) - 1 - (k : ℤ)) < 0 := by
    rw [h]; omega
  unfold rollingReturn
  rw [if_pos h.ge]
  unfold jsGet
  rw [if_pos hneg]

/-- C2 (evaluation at the failing input): at exactly 252 price points the
rolling-1Y lookup reads `values[-1]` (`undefined`), so the rolling return is
`NaN`: the engine emits the `NaN` rendering with a very-negative sentiment,
which also survives the final filter into the output — not a well-defined
number and not the sentinel. -/
theorem claim2_rolling_nan_at_threshold_eval :
    rollingReturn (egSeries252.map (·.valueUSD)) TRADING_DAYS_PER_YEAR 1 = some none
    ∧ (⟨"Rolling 1Y return", RVal.nan, some "Stability across different start dates",
        some Sentiment.veryNegative⟩ : Ratio) ∈ returnQualityRatios egSeries252
    ∧ ∃ s ∈ computeRatioSections egProfile0 egHist252, s.id = "return-quality" ∧
       (⟨"Rolling 1Y return", RVal.nan, some "Stability across different start dates",
         some Sentiment.veryNegative⟩ : Ratio) ∈ s.ratios := by
  have hlen : (egSeries252.map (·.valueUSD)).length = 252 := by
    rw [List.length_map, egSeries252, List.length_replicate]
  have hroll : rollingReturn (egSeries252.map (·.valueUSD)) TRADING_DAYS_PER_YEAR 1 =
      some none :=
    rollingReturn_at_exact_threshold _ _ (by rw [hlen]; rfl) 1
  have hlen2 : egSeries252.length ≥ 2 := by
    rw [egSeries252, List.length_replicate]; omega
  have hlen252 : egSeries252.length ≥ TRADING_DAYS_PER_YEAR := by
    rw [egSeries252, List.length_replicate]; rfl
  have hmem : (⟨"Rolling 1Y return", RVal.nan,
      some "Stability across different start dates",
      some Sentiment.veryNegative⟩ : Ratio) ∈ returnQualityRatios egSeries252 := by
    simp only [returnQualityRatios]
    rw [if_pos hlen2, if_pos hlen252, hroll]
    simp [rollValue, rollSent]
  refine ⟨hroll, hmem, ?_⟩
  exact mem_output_of_mem_raw egProfile0 egHist252 ⟨"return-quality", "Return quality",
    some "How fast did it grow per year? Time-weighted vs money-weighted. Rolling returns.",
    returnQualityRatios egSeries252⟩ (by simp [rawSections, egHist252]) _ hmem rfl

/-- Invariant of the drawdown-duration loop: with `maxD = best - 1` and the
current-run bookkeeping in sync (`cur = i - start` inside a run, `cur = 0`
outside), the source loop computes one less than the longest run length. -/
theorem mddGo_eq_runsGo (values : List ℝ) :
    ∀ (i start cur best : ℕ) (peak : ℝ) (inD : Bool),
      (inD = true → start ≤ i ∧ i - start = cur) → (inD = false → cur = 0) →
      mddGo values i peak inD start (best - 1) = runsGo values peak cur best - 1 := by
  induction values with
  | nil => intro i start cur best peak inD h1 h2; rfl
  | cons v rest ih =>
      intro i start cur best peak inD h1 h2
      simp only [mddGo, runsGo]
      by_cases hv : v < max peak v
      · rw [if_pos hv, if_pos hv]
        cases inD with
        | true =>
            obtain ⟨hsi, hisc⟩ := h1 rfl
            rw [if_pos rfl]
            have hmax : max (best - 1) (i - start) = max best (cur + 1) - 1 := by omega
            rw [hmax]
            exact ih (i + 1) start (cur + 1) (max best (cur + 1)) (max peak v) true
              (fun _ => ⟨by omega, by omega⟩) (fun hf => by simp at hf)
        | false =>
            have hc0 := h2 rfl
            subst hc0
            rw [if_neg Bool.false_ne_true]
            have hmax : max (best - 1) (i - i) = max best (0 + 1) - 1 := by omega
            rw [hmax]
            exact ih (i + 1) i (0 + 1) (max best (0 + 1)) (max peak v) true
              (fun _ => ⟨by omega, by omega⟩) (fun hf => by simp at hf)
      · rw [if_neg hv, if_neg hv]
        exact ih (i + 1) start 0 best (max peak v) false (fun hf => by simp at hf)
          (fun _ => rfl)

/-- The source's max-drawdown duration is the longest below-peak run length
minus one (truncated at zero). -/
theorem maxDrawdownDuration_eq (values : List ℝ) :
    maxDrawdownDuration values = longestBelowPeakRun values - 1 :=
  mddGo_eq_runsGo values 0 0 0 0 (values.headD 0) false
    (fun hf => by simp at hf) (fun _ => rfl)

/-- C6 (amended): the reported max drawdown duration is the length of the
longest contiguous run of strictly-below-peak points minus one (the index
distance from the first below-peak point of the run to its last), not the
run length itself; and that number is what the risk section reports. -/
theorem claim6_duration_amended :
    (∀ values : List ℝ, maxDrawdownDuration values = longestBelowPeakRun values - 1)
    ∧ ∀ (P : UserProfile) (H : PortfolioPriceHistory), H.data.length ≥ 2 →
      ∃ s ∈ computeRatioSections P H, s.id = "risk-sharpe-misses" ∧
        (⟨"Max drawdown duration (days)",
          .num (maxDrawdownDuration (H.data.map (·.valueUSD)) : ℝ),
          some "How long underwater",
          some (durationSentiment (maxDrawdownDuration (H.data.map (·.valueUSD)) : ℝ))⟩ : Ratio)
          ∈ s.ratios := by
  refine ⟨maxDrawdownDuration_eq, ?_⟩
  intro P H hlen
  refine mem_output_of_mem_raw P H ⟨"risk-sharpe-misses", "Risk that Sharpe misses",
    some "Sortino, downside deviation, Calmar, ulcer index", riskRatios H.data⟩
    (by simp [rawSections]) _ ?_ rfl
  show _ ∈ riskRatios H.data
  simp only [riskRatios]
  rw [if_pos hlen]
  simp

/-- Counterexample for C6: the series `[2, 1, 2]` has exactly one below-peak
point, a longest below-peak run of length 1, but the engine reports a max
drawdown duration of 0 (and classifies it `positive`), not 1. -/
theorem claim6_duration_counterexample :
    maxDrawdownDuration (egSeriesDip.map (·.valueUSD)) = 0
    ∧ longestBelowPeakRun (egSeriesDip.map (·.valueUSD)) = 1
    ∧ ∃ s ∈ computeRatioSections egProfile0 egHistDip, s.id = "risk-sharpe-misses" ∧
       (⟨"Max drawdown duration (days)", .num 0, some "How long underwater",
         some Sentiment.positive⟩ : Ratio) ∈ s.ratios := by
  have hvals : egSeriesDip.map (·.valueUSD) = [(2 : ℝ), 1, 2] := by
    simp [egSeriesDip]
  have hmdd : maxDrawdownDuration (egSeriesDip.map (·.valueUSD)) = 0 := by
    rw [hvals]
    norm_num [maxDrawdownDuration, mddGo, max_def]
  have hrun : longestBelowPeakRun (egSeriesDip.map (·.valueUSD)) = 1 := by
    rw [hvals]
    norm_num [longestBelowPeakRun, runsGo, max_def]
  refine ⟨hmdd, hrun, ?_⟩
  have hdur0 : durationSentiment ((0 : ℕ) : ℝ) = Sentiment.positive := by
    norm_num [durationSentiment]
  refine mem_output_of_mem_raw egProfile0 egHistDip ⟨"risk-sharpe-misses",
    "Risk that Sharpe misses", some "Sortino, downside deviation, Calmar, ulcer index",
    riskRatios egHistDip.data⟩ (by simp [rawSections]) _ ?_ rfl
  show _ ∈ riskRatios egHistDip.data
  have hlen : egHistDip.data.length ≥ 2 := by simp [egHistDip, egSeriesDip]
  simp only [riskRatios]
  rw [if_pos hlen]
  rw [show egHistDip.data = egSeriesDip from rfl, hmdd]
  norm_num [durationSentiment]

/-- Witness for C6 (amended) on the dip series `[2, 1, 2]`. -/
theorem claim6_duration_amended_witness :
    maxDrawdownDuration (egSeriesDip.map (·.valueUSD)) =
      longestBelowPeakRun (egSeriesDip.map (·.valueUSD)) - 1
    ∧ ∃ s ∈ computeRatioSections egProfile0 egHistDip, s.id = "risk-sharpe-misses" ∧
       (⟨"Max drawdown duration (days)",
         .num (maxDrawdownDuration (egHistDip.data.map (·.valueUSD)) : ℝ),
         some "How long underwater",
         some (durationSentiment
           (maxDrawdownDuration (egHistDip.data.map (·.valueUSD)) : ℝ))⟩ : Ratio)
         ∈ s.ratios :=
  ⟨claim6_duration_amended.1 (egSeriesDip.map (·.valueUSD)),
   claim6_duration_amended.2 egProfile0 egHistDip (by simp [egHistDip, egSeriesDip])⟩

/-- Sum of a list divided pointwise. -/
theorem list_sum_map_div (l : List ℝ) (c : ℝ) :
    (l.map (fun x => x / c)).sum = l.sum / c := by
  induction l with
  | nil => simp
  | cons a t ih => simp [ih, add_div]

/-- For non-negative entries the sum of squares is at most the square of the
sum. -/
theorem list_sum_sq_le_sq (l : List ℝ) (h : ∀ x ∈ l, 0 ≤ x) :
    (l.map (fun x => x * x)).sum ≤ l.sum * l.sum := by
  induction l with
  | nil => simp
  | cons a t ih =>
      simp only [List.map_cons, List.sum_cons]
      have ha : 0 ≤ a := h a (by simp)
      have ht : ∀ x ∈ t, 0 ≤ x := fun x hx => h x (by simp [hx])
      have hts : 0 ≤ t.sum := List.sum_nonneg ht
      nlinarith [ih ht, ha, hts]

/-- Cauchy–Schwarz for lists: the square of the sum is at most the length
times the sum of squares. -/
theorem list_sq_sum_le_card_mul (l : List ℝ) :
    l.sum * l.sum ≤ l.length * (l.map (fun x => x * x)).sum := by
  induction l with
  | nil => simp
  | cons a t ih =>
      simp only [List.map_cons, List.sum_cons, List.length_cons]
      have hq : 0 ≤ (t.map (fun x => x * x)).sum := by
        refine List.sum_nonneg ?_
        intro x hx
        obtain ⟨y, -, rfl⟩ := List.mem_map.mp hx
        exact mul_self_nonneg y
      have hn : (0 : ℝ) ≤ t.length := Nat.cast_nonneg t.length
      by_cases ht0 : t = []
      · subst ht0
        simp
      · have hlen1 : (1 : ℝ) ≤ (t.length : ℝ) := by
          have := List.length_pos.mpr ht0
          exact_mod_cast this
        push_cast
        nlinarith [ih, hq, hlen1, sq_nonneg ((t.length : ℝ) * a - t.sum),
          mul_le_mul_of_nonneg_left ih hn]

/-- C7: for a nonempty holdings list with non-negative values whose total is
the recomputed sum and positive, the weights sum to 1, the HHI lies in
`(0, 1]` and the effective number of holdings lies in `[1, count]`. -/
theorem claim7_concentration_bounds (holdings : List Holding) (total : ℝ)
    (hne : holdings ≠ [])
    (hnn : ∀ h ∈ holdings, 0 ≤ h.valueUSD)
    (htot : total = (holdings.map (·.valueUSD)).sum)
    (hpos : 0 < total) :
    (weightsOf holdings total).sum = 1
    ∧ 0 < hhiOf holdings total ∧ hhiOf holdings total ≤ 1
    ∧ 1 ≤ effNOf holdings total ∧ effNOf holdings total ≤ holdings.length := by
  have hmapeq : weightsOf holdings total =
      (holdings.map (·.valueUSD)).map (fun x => x / total) := by
    rw [weightsOf, List.map_map]
    rfl
  have hsum1 : (weightsOf holdings total).sum = 1 := by
    rw [hmapeq, list_sum_map_div, ← htot, div_self (ne_of_gt hpos)]
  have hwnn : ∀ w ∈ weightsOf holdings total, 0 ≤ w := by
    intro w hw
    rw [hmapeq] at hw
    obtain ⟨x, hx, rfl⟩ := List.mem_map.mp hw
    obtain ⟨hh, hhm, rfl⟩ := List.mem_map.mp hx
    exact div_nonneg (hnn hh hhm) (le_of_lt hpos)
  have hlenw : (weightsOf holdings total).length = holdings.length := by
    rw [weightsOf, List.length_map]
  have hhile : hhiOf holdings total ≤ 1 := by
    have := list_sum_sq_le_sq (weightsOf holdings total) hwnn
    rw [hsum1] at this
    simpa [hhiOf] using this
  have hcs : (1 : ℝ) ≤ holdings.length * hhiOf holdings total := by
    have := list_sq_sum_le_card_mul (weightsOf holdings total)
    rw [hsum1, hlenw] at this
    simpa [hhiOf] using this
  have hlpos : (0 : ℝ) < holdings.length := by
    have := List.length_pos.mpr hne
    exact_mod_cast this
  have hhipos : 0 < hhiOf holdings total := by nlinarith [hcs, hlpos, hhile]
  refine ⟨hsum1, hhipos, hhile, ?_, ?_⟩
  · rw [effNOf, if_pos hhipos, le_div_iff₀ hhipos]
    linarith
  · rw [effNOf, if_pos hhipos, div_le_iff₀ hhipos]
    linarith

/-- Witness for C7 on holdings `[500 cash, 1500 stocks]` (total 2000). -/
theorem claim7_concentration_bounds_witness :
    (weightsOf egHoldings2 2000).sum = 1
    ∧ 0 < hhiOf egHoldings2 2000 ∧ hhiOf egHoldings2 2000 ≤ 1
    ∧ 1 ≤ effNOf egHoldings2 2000 ∧ effNOf egHoldings2 2000 ≤ egHoldings2.length :=
  claim7_concentration_bounds egHoldings2 2000 (by simp [egHoldings2])
    (by intro h hh; fin_cases hh <;> norm_num [egHoldings2])
    (by norm_num [egHoldings2]) (by norm_num)

/-- `returnSentiment` is monotone non-decreasing in sentiment rank. -/
theorem returnSentiment_rank_mono (x y : ℝ) (hxy : x ≤ y) :
    sentRank (returnSentiment x) ≤ sentRank (returnSentiment y) := by
  unfold returnSentiment
  split_ifs <;> simp [sentRank] <;> linarith

/-- `sharpeFamily` is monotone non-decreasing in sentiment rank. -/
theorem sharpeFamily_rank_mono (x y : ℝ) (hxy : x ≤ y) :
    sentRank (sharpeFamily x) ≤ sentRank (sharpeFamily y) := by
  unfold sharpeFamily
  split_ifs <;> simp [sentRank] <;> linarith

/-- `drawdownSentiment` is monotone non-decreasing in sentiment rank. -/
theorem drawdownSentiment_rank_mono (x y : ℝ) (hxy : x ≤ y) :
    sentRank (drawdownSentiment x) ≤ sentRank (drawdownSentiment y) := by
  unfold drawdownSentiment
  split_ifs <;> simp [sentRank] <;> linarith

/-- `calmarSentiment` is monotone non-decreasing in sentiment rank. -/
theorem calmarSentiment_rank_mono (x y : ℝ) (hxy : x ≤ y) :
    sentRank (calmarSentiment x) ≤ sentRank (calmarSentiment y) := by
  unfold calmarSentiment
  split_ifs <;> simp [sentRank] <;> linarith

/-- `alphaSentiment` is monotone non-decreasing in sentiment rank. -/
theorem alphaSentiment_rank_mono (x y : ℝ) (hxy : x ≤ y) :
    sentRank (alphaSentiment x) ≤ sentRank (alphaSentiment y) := by
  unfold alphaSentiment
  split_ifs <;> simp [sentRank] <;> linarith

/-- `infoRatioSentiment` is monotone non-decreasing in sentiment rank. -/
theorem infoRatioSentiment_rank_mono (x y : ℝ) (hxy : x ≤ y) :
    sentRank (infoRatioSentiment x) ≤ sentRank (infoRatioSentiment y) := by
  unfold infoRatioSentiment
  split_ifs <;> simp [sentRank] <;> linarith

/-- `varSentiment` is monotone non-decreasing in sentiment rank. -/
theorem varSentiment_rank_mono (x y : ℝ) (hxy : x ≤ y) :
    sentRank (varSentiment x) ≤ sentRank (varSentiment y) := by
  unfold varSentiment
  split_ifs <;> simp [sentRank] <;> linarith

/-- `cvarSentiment` is monotone non-decreasing in sentiment rank. -/
theorem cvarSentiment_rank_mono (x y : ℝ) (hxy : x ≤ y) :
    sentRank (cvarSentiment x) ≤ sentRank (cvarSentiment y) := by
  unfold cvarSentiment
  split_ifs <;> simp [sentRank] <;> linarith

/-- `skewnessSentiment` is monotone non-decreasing in sentiment rank. -/
theorem skewnessSentiment_rank_mono (x y : ℝ) (hxy : x ≤ y) :
    sentRank (skewnessSentiment x) ≤ sentRank (skewnessSentiment y) := by
  unfold skewnessSentiment
  split_ifs <;> simp [sentRank] <;> linarith

/-- `effectiveNSentiment` is monotone non-decreasing in sentiment rank. -/
theorem effectiveNSentiment_rank_mono (x y : ℝ) (hxy : x ≤ y) :
    sentRank (effectiveNSentiment x) ≤ sentRank (effectiveNSentiment y) := by
  unfold effectiveNSentiment
  split_ifs <;> simp [sentRank] <;> linarith

/-- `liquiditySentiment` is monotone non-decreasing in sentiment rank. -/
theorem liquiditySentiment_rank_mono (x y : ℝ) (hxy : x ≤ y) :
    sentRank (liquiditySentiment x) ≤ sentRank (liquiditySentiment y) := by
  unfold liquiditySentiment
  split_ifs <;> simp [sentRank] <;> linarith

/-- `downsideDevSentiment` is monotone non-increasing in sentiment rank. -/
theorem downsideDevSentiment_rank_anti (x y : ℝ) (hxy : x ≤ y) :
    sentRank (downsideDevSentiment y) ≤ sentRank (downsideDevSentiment x) := by
  unfold downsideDevSentiment
  split_ifs <;> simp [sentRank] <;> linarith

/-- `ulcerSentiment` is monotone non-increasing in sentiment rank. -/
theorem ulcerSentiment_rank_anti (x y : ℝ) (hxy : x ≤ y) :
    sentRank (ulcerSentiment y) ≤ sentRank (ulcerSentiment x) := by
  unfold ulcerSentiment
  split_ifs <;> simp [sentRank] <;> linarith

/-- `durationSentiment` is monotone non-increasing in sentiment rank. -/
theorem durationSentiment_rank_anti (x y : ℝ) (hxy : x ≤ y) :
    sentRank (durationSentiment y) ≤ sentRank (durationSentiment x) := by
  unfold durationSentiment
  split_ifs <;> simp [sentRank] <;> linarith

/-- `kurtosisSentiment` is monotone non-increasing in sentiment rank. -/
theorem kurtosisSentiment_rank_anti (x y : ℝ) (hxy : x ≤ y) :
    sentRank (kurtosisSentiment y) ≤ sentRank (kurtosisSentiment x) := by
  unfold kurtosisSentiment
  split_ifs <;> simp [sentRank] <;> linarith

/-- `hhiSentiment` is monotone non-increasing in sentiment rank. -/
theorem hhiSentiment_rank_anti (x y : ℝ) (hxy : x ≤ y) :
    sentRank (hhiSentiment y) ≤ sentRank (hhiSentiment x) := by
  unfold hhiSentiment
  split_ifs <;> simp [sentRank] <;> linarith

/-- `topHoldingPctSentiment` is monotone non-increasing in sentiment rank. -/
theorem topHoldingPctSentiment_rank_anti (x y : ℝ) (hxy : x ≤ y) :
    sentRank (topHoldingPctSentiment y) ≤ sentRank (topHoldingPctSentiment x) := by
  unfold topHoldingPctSentiment
  split_ifs <;> simp [sentRank] <;> linarith

/-- `top5PctSentiment` is monotone non-increasing in sentiment rank. -/
theorem top5PctSentiment_rank_anti (x y : ℝ) (hxy : x ≤ y) :
    sentRank (top5PctSentiment y) ≤ sentRank (top5PctSentiment x) := by
  unfold top5PctSentiment
  split_ifs <;> simp [sentRank] <;> linarith

/-- `top10PctSentiment` is monotone non-increasing in sentiment rank. -/
theorem top10PctSentiment_rank_anti (x y : ℝ) (hxy : x ≤ y) :
    sentRank (top10PctSentiment y) ≤ sentRank (top10PctSentiment x) := by
  unfold top10PctSentiment
  split_ifs <;> simp [sentRank] <;> linarith

/-- `volSentiment` is monotone non-increasing in sentiment rank. -/
theorem volSentiment_rank_anti (x y : ℝ) (hxy : x ≤ y) :
    sentRank (volSentiment y) ≤ sentRank (volSentiment x) := by
  unfold volSentiment
  split_ifs <;> simp [sentRank] <;> linarith

/-- `betaSentiment` depends only on the absolute value of its argument. -/
theorem betaSentiment_abs (b : ℝ) : betaSentiment b = betaSentiment |b| := by
  unfold betaSentiment
  rw [abs_abs]

/-- On the non-negative half line, `betaSentiment` is non-increasing in
sentiment rank. -/
theorem betaSentiment_rank_anti_nonneg (x y : ℝ) (hx : 0 ≤ x) (hxy : x ≤ y) :
    sentRank (betaSentiment y) ≤ sentRank (betaSentiment x) := by
  unfold betaSentiment
  rw [abs_of_nonneg hx, abs_of_nonneg (le_trans hx hxy)]
  split_ifs <;> simp [sentRank] <;> linarith

/-- C8 (amended): every per-metric sentiment classifier except the beta
classifier is a monotone step function into the ordinal sentiment scale,
each with a fixed direction; the beta classifier is not monotone in beta
but is a function of `|beta|` alone and is monotone non-increasing in
`|beta|`. -/
theorem claim8_classifier_monotonicity :
    ((∀ x y : ℝ, x ≤ y → sentRank (returnSentiment x) ≤ sentRank (returnSentiment y))
      ∧ (∀ x y : ℝ, x ≤ y → sentRank (sharpeFamily x) ≤ sentRank (sharpeFamily y))
      ∧ (∀ x y : ℝ, x ≤ y → sentRank (drawdownSentiment x) ≤ sentRank (drawdownSentiment y))
      ∧ (∀ x y : ℝ, x ≤ y → sentRank (calmarSentiment x) ≤ sentRank (calmarSentiment y))
      ∧ (∀ x y : ℝ, x ≤ y → sentRank (alphaSentiment x) ≤ sentRank (alphaSentiment y))
      ∧ (∀ x y : ℝ, x ≤ y → sentRank (infoRatioSentiment x) ≤ sentRank (infoRatioSentiment y))
      ∧ (∀ x y : ℝ, x ≤ y → sentRank (varSentiment x) ≤ sentRank (varSentiment y))
      ∧ (∀ x y : ℝ, x ≤ y → sentRank (cvarSentiment x) ≤ sentRank (cvarSentiment y))
      ∧ (∀ x y : ℝ, x ≤ y → sentRank (skewnessSentiment x) ≤ sentRank (skewnessSentiment y))
      ∧ (∀ x y : ℝ, x ≤ y → sentRank (effectiveNSentiment x) ≤ sentRank (effectiveNSentiment y))
      ∧ (∀ x y : ℝ, x ≤ y → sentRank (liquiditySentiment x) ≤ sentRank (liquiditySentiment y)))
    ∧ ((∀ x y : ℝ, x ≤ y → sentRank (downsideDevSentiment y) ≤ sentRank (downsideDevSentiment x))
      ∧ (∀ x y : ℝ, x ≤ y → sentRank (ulcerSentiment y) ≤ sentRank (ulcerSentiment x))
      ∧ (∀ x y : ℝ, x ≤ y → sentRank (durationSentiment y) ≤ sentRank (durationSentiment x))
      ∧ (∀ x y : ℝ, x ≤ y → sentRank (kurtosisSentiment y) ≤ sentRank (kurtosisSentiment x))
      ∧ (∀ x y : ℝ, x ≤ y → sentRank (hhiSentiment y) ≤ sentRank (hhiSentiment x))
      ∧ (∀ x y : ℝ, x ≤ y →
          sentRank (topHoldingPctSentiment y) ≤ sentRank (topHoldingPctSentiment x))
      ∧ (∀ x y : ℝ, x ≤ y → sentRank (top5PctSentiment y) ≤ sentRank (top5PctSentiment x))
      ∧ (∀ x y : ℝ, x ≤ y → sentRank (top10PctSentiment y) ≤ sentRank (top10PctSentiment x))
      ∧ (∀ x y : ℝ, x ≤ y → sentRank (volSentiment y) ≤ sentRank (volSentiment x)))
    ∧ ((∀ b : ℝ, betaSentiment b = betaSentiment |b|)
      ∧ (∀ x y : ℝ, 0 ≤ x → x ≤ y →
          sentRank (betaSentiment y) ≤ sentRank (betaSentiment x))) :=
  ⟨⟨returnSentiment_rank_mono, sharpeFamily_rank_mono, drawdownSentiment_rank_mono,
    calmarSentiment_rank_mono, alphaSentiment_rank_mono, infoRatioSentiment_rank_mono,
    varSentiment_rank_mono, cvarSentiment_rank_mono, skewnessSentiment_rank_mono,
    effectiveNSentiment_rank_mono, liquiditySentiment_rank_mono⟩,
   ⟨downsideDevSentiment_rank_anti, ulcerSentiment_rank_anti, durationSentiment_rank_anti,
    kurtosisSentiment_rank_anti, hhiSentiment_rank_anti, topHoldingPctSentiment_rank_anti,
    top5PctSentiment_rank_anti, top10PctSentiment_rank_anti, volSentiment_rank_anti⟩,
   betaSentiment_abs, betaSentiment_rank_anti_nonneg⟩

/-- Counterexample for C8: the beta classifier is monotone in neither
direction — `-2 ≤ 0 ≤ 2` yet both `-2` and `2` get a strictly lower
sentiment rank than `0`. -/
theorem claim8_beta_not_monotone_counterexample :
    sentRank (betaSentiment (-2)) < sentRank (betaSentiment 0)
    ∧ sentRank (betaSentiment 2) < sentRank (betaSentiment 0)
    ∧ ¬ (∀ x y : ℝ, x ≤ y → sentRank (betaSentiment x) ≤ sentRank (betaSentiment y))
    ∧ ¬ (∀ x y : ℝ, x ≤ y → sentRank (betaSentiment y) ≤ sentRank (betaSentiment x)) := by
  have hm : betaSentiment (-2) = Sentiment.veryNegative := by
    unfold betaSentiment
    rw [show |(-2 : ℝ)| = 2 by norm_num [abs_of_nonpos]]
    norm_num
  have hp : betaSentiment 2 = Sentiment.veryNegative := by
    unfold betaSentiment
    rw [abs_of_nonneg (by norm_num : (0 : ℝ) ≤ 2)]
    norm_num
  have h0 : betaSentiment 0 = Sentiment.neutral := by
    unfold betaSentiment
    rw [abs_zero]
    norm_num
  refine ⟨by rw [hm, h0]; decide, by rw [hp, h0]; decide, ?_, ?_⟩
  · intro h
    have := h 0 2 (by norm_num)
    rw [hp, h0] at this
    simp [sentRank] at this
  · intro h
    have := h (-2) 0 (by norm_num)
    rw [hm, h0] at this
    simp [sentRank] at this

/-- Witness for C8 (amended) at concrete classifier inputs. -/
theorem claim8_classifier_monotonicity_witness :
    sentRank (returnSentiment 0) ≤ sentRank (returnSentiment 1)
    ∧ sentRank (volSentiment 1) ≤ sentRank (volSentiment 0)
    ∧ betaSentiment (-2) = betaSentiment |(-2 : ℝ)|
    ∧ sentRank (betaSentiment 2) ≤ sentRank (betaSentiment 1) :=
  ⟨claim8_classifier_monotonicity.1.1 0 1 (by norm_num),
   claim8_classifier_monotonicity.2.1.2.2.2.2.2.2.2.2 0 1 (by norm_num),
   claim8_classifier_monotonicity.2.2.1 (-2),
   claim8_classifier_monotonicity.2.2.2 1 2 (by norm_num) (by norm_num)⟩

/-- C10: with at least 2 data points, a nonempty benchmark, at least 2
date-aligned points and zero benchmark-return variance, the engine reports
Beta as the numeric value 0 with neutral sentiment and R² as 0 with neutral
sentiment, and the market-sensitivity section stays in the output. -/
theorem claim10_zero_benchmark_variance (P : UserProfile) (H : PortfolioPriceHistory)
    (hlen : H.data.length ≥ 2)
    (hsp : (H.sp500.getD []).length > 0)
    (halign : (alignedPairs H.data (H.sp500.getD [])).length ≥ 2)
    (hvar : popVar (dailyReturns ((alignedPairs H.data (H.sp500.getD [])).map (·.2))) = 0) :
    ∃ s ∈ computeRatioSections P H, s.id = "market-sensitivity" ∧
      (⟨"Beta (vs S&P 500)", .num 0, some "How market-like the portfolio is",
        some Sentiment.neutral⟩ : Ratio) ∈ s.ratios ∧
      (⟨"R²", .num 0, some "How much movement is explained by benchmark",
        some Sentiment.neutral⟩ : Ratio) ∈ s.ratios := by
  have hbeta0 : betaSentiment 0 = Sentiment.neutral := by
    unfold betaSentiment
    rw [abs_zero]
    norm_num
  have hbmem : (⟨"Beta (vs S&P 500)", .num 0, some "How market-like the portfolio is",
      some Sentiment.neutral⟩ : Ratio) ∈ marketRatios H.data (H.sp500.getD []) := by
    simp only [marketRatios]
    rw [if_pos ⟨hlen, hsp⟩, if_pos halign, hvar]
    norm_num [hbeta0]
  have hrmem : (⟨"R²", .num 0, some "How much movement is explained by benchmark",
      some Sentiment.neutral⟩ : Ratio) ∈ marketRatios H.data (H.sp500.getD []) := by
    simp only [marketRatios]
    rw [if_pos ⟨hlen, hsp⟩, if_pos halign, hvar]
    norm_num
  refine ⟨⟨"market-sensitivity", "Market sensitivity & benchmark skill",
    some "Beta, alpha, tracking error, information ratio, R²",
    (marketRatios H.data (H.sp500.getD [])).filter (fun x => !x.value.isSentinel)⟩,
    ?_, rfl, List.mem_filter.mpr ⟨hbmem, rfl⟩, List.mem_filter.mpr ⟨hrmem, rfl⟩⟩
  unfold computeRatioSections
  rw [List.mem_filter]
  refine ⟨List.mem_map.mpr ⟨⟨"market-sensitivity", "Market sensitivity & benchmark skill",
    some "Beta, alpha, tracking error, information ratio, R²",
    marketRatios H.data (H.sp500.getD [])⟩, by simp [rawSections], rfl⟩, ?_⟩
  simpa using List.length_pos.mpr (List.ne_nil_of_mem (List.mem_filter.mpr ⟨hbmem, rfl⟩))

/-- Witness for C10: portfolio `[100, 110]` against benchmark `[50, 55]`
(one benchmark return, hence zero benchmark variance). -/
theorem claim10_zero_benchmark_variance_witness :
    ∃ s ∈ computeRatioSections egProfile0 egHist2b, s.id = "market-sensitivity" ∧
      (⟨"Beta (vs S&P 500)", .num 0, some "How market-like the portfolio is",
        some Sentiment.neutral⟩ : Ratio) ∈ s.ratios ∧
      (⟨"R²", .num 0, some "How much movement is explained by benchmark",
        some Sentiment.neutral⟩ : Ratio) ∈ s.ratios := by
  have haligneq : alignedPairs egHist2b.data (egHist2b.sp500.getD []) =
      [((100 : ℝ), (50 : ℝ)), (110, 55)] := by
    simp [alignedPairs, spLookup, egHist2b, egSeries2, egSp2]
  refine claim10_zero_benchmark_variance egProfile0 egHist2b
    (by simp [egHist2b, egSeries2]) (by simp [egHist2b, egSp2]) ?_ ?_
  · rw [haligneq]
    simp
  · rw [haligneq]
    norm_num [popVar, dailyReturns, fMean]

theorem hexVal_hexDigit (b : ℕ) (h : b < 16) : hexVal (hexDigit b) = some b := by
  interval_cases b <;> decide

theorem utf8Assemble_inr (c : Char) (rest : List (Sum ℕ Char)) :
    utf8Assemble (Sum.inr c :: rest) = c :: utf8Assemble rest := by
  simp only [utf8Assemble]

theorem utf8Assemble_bytes (t : ℕ) (ht : t < 1114112) (rest : List (Sum ℕ Char)) :
    utf8Assemble ((utf8Bytes t).map Sum.inl ++ rest) = Char.ofNat t :: utf8Assemble rest := by
  by_cases h1 : t < 128
  · rw [utf8Bytes, if_pos h1]
    simp only [List.map_cons, List.map_nil, List.cons_append, List.nil_append]
    simp only [utf8Assemble]
    rw [seqLen, if_pos (by omega : t < 194)]
    simp only [takeCont, decodeSeq]
  · by_cases h2 : t < 2048
    · rw [utf8Bytes, if_neg h1, if_pos h2]
      simp only [List.map_cons, List.map_nil, List.cons_append, List.nil_append]
      simp only [utf8Assemble]
      rw [seqLen, if_neg (by omega), if_pos (by omega)]
      simp only [takeCont, decodeSeq]
      have hx : (192 + t / 64 - 192) * 64 + (128 + t % 64 - 128) = t := by omega
      rw [hx]
    · by_cases h3 : t < 65536
      · rw [utf8Bytes, if_neg h1, if_neg h2, if_pos h3]
        simp only [List.map_cons, List.map_nil, List.cons_append, List.nil_append]
        simp only [utf8Assemble]
        rw [seqLen, if_neg (by omega), if_neg (by omega), if_pos (by omega)]
        simp only [takeCont, decodeSeq]
        have hx : (224 + t / 4096 - 224) * 4096 + (128 + t / 64 % 64 - 128) * 64
            + (128 + t % 64 - 128) = t := by omega
        rw [hx]
      · rw [utf8Bytes, if_neg h1, if_neg h2, if_neg h3]
        simp only [List.map_cons, List.map_nil, List.cons_append, List.nil_append]
        simp only [utf8Assemble]
        rw [seqLen]
        rw [if_neg (by omega)]
        rw [if_neg (by omega), if_neg (by omega)]
        simp only [takeCont, decodeSeq]
        have hx : (240 + t / 262144 - 240) * 262144 + (128 + t / 4096 % 64 - 128) * 4096
            + (128 + t / 64 % 64 - 128) * 64 + (128 + t % 64 - 128) = t := by omega
        rw [hx]

theorem pctTokens_pct (b : ℕ) (hb : b < 256) (rest : List Char) :
    pctTokens (pctEncodeByte b ++ rest) = Sum.inl b :: pctTokens rest := by
  have h16a : b / 16 < 16 := by omega
  have h16b : b % 16 < 16 := by omega
  have hn : 16 * (b / 16) + b % 16 = b := by omega
  simp only [pctEncodeByte, List.cons_append, List.nil_append]
  simp only [pctTokens, hexVal_hexDigit _ h16a, hexVal_hexDigit _ h16b, hn]

theorem pctTokens_cons_ne (c : Char) (hc : c ≠ '%') (l : List Char) :
    pctTokens (c :: l) = Sum.inr c :: pctTokens l := by
  rw [pctTokens.eq_def]
  split
  · rename_i heq
    exact absurd heq (by simp)
  · rename_i a b rest heq
    injection heq with h1 h2
    exact absurd h1 hc
  · rename_i c2 rest hno heq
    injection heq with h1 h2
    subst h1
    subst h2
    rfl

theorem char_toNat_lt_max (c : Char) : c.toNat < 1114112 := by
  rcases c.valid with h | ⟨-, h⟩ <;> simp [Char.toNat] at h ⊢ <;> omega

theorem utf8Bytes_lt (t : ℕ) (ht : t < 1114112) : ∀ b ∈ utf8Bytes t, b < 256 := by
  intro b hb
  rw [utf8Bytes] at hb
  split_ifs at hb <;> simp at hb <;> omega

theorem pctTokens_bytes (bs : List ℕ) (hbs : ∀ b ∈ bs, b < 256) (r : List Char) :
    pctTokens (bs.flatMap pctEncodeByte ++ r) = bs.map Sum.inl ++ pctTokens r := by
  induction bs with
  | nil => simp
  | cons b t ih =>
      simp only [List.flatMap_cons, List.map_cons, List.append_assoc, List.cons_append]
      rw [pctTokens_pct b (hbs b (by simp)), ih (fun x hx => hbs x (by simp [hx]))]

theorem isUnreserved_ne_pct (c : Char) (h : isUnreserved c = true) : c ≠ '%' := by
  intro rfl2
  subst rfl2
  exact absurd h (by decide)

theorem decode_encode_append (s r : List Char) :
    decodeURIComponent (encodeURIComponent s ++ r) = s ++ decodeURIComponent r := by
  induction s with
  | nil => simp [encodeURIComponent]
  | cons c t ih =>
      have henc : encodeURIComponent (c :: t) =
          (if isUnreserved c then [c] else (utf8Bytes c.toNat).flatMap pctEncodeByte)
            ++ encodeURIComponent t := rfl
      rw [henc, List.append_assoc]
      by_cases hu : isUnreserved c
      · rw [if_pos hu]
        show decodeURIComponent (c :: (encodeURIComponent t ++ r)) = _
        rw [decodeURIComponent, pctTokens_cons_ne c (isUnreserved_ne_pct c hu),
          utf8Assemble_inr, ← decodeURIComponent, ih]
        rfl
      · rw [if_neg hu]
        rw [decodeURIComponent,
          pctTokens_bytes _ (utf8Bytes_lt _ (char_toNat_lt_max c)) _,
          utf8Assemble_bytes _ (char_toNat_lt_max c), Char.ofNat_toNat,
          ← decodeURIComponent, ih]
        rfl

theorem decode_encode (s : List Char) :
    decodeURIComponent (encodeURIComponent s) = s := by
  have h := decode_encode_append s []
  simpa [decodeURIComponent, pctTokens, utf8Assemble] using h

theorem hexDigit_ne (k : ℕ) (hk : k < 16) : hexDigit k ≠ ':' ∧ hexDigit k ≠ ',' := by
  interval_cases k <;> exact ⟨by decide, by decide⟩

theorem mem_encode_ne (s : List Char) (ch : Char) (hch : ch ∈ encodeURIComponent s) :
    ch ≠ ':' ∧ ch ≠ ',' := by
  rw [encodeURIComponent] at hch
  rcases List.mem_flatMap.mp hch with ⟨c, -, hc⟩
  split_ifs at hc with hu
  · simp only [List.mem_singleton] at hc
    subst hc
    constructor
    · intro h2
      rw [h2] at hu
      exact absurd hu (by decide)
    · intro h2
      rw [h2] at hu
      exact absurd hu (by decide)
  · rcases List.mem_flatMap.mp hc with ⟨b, hb, hpb⟩
    have hb256 : b < 256 := utf8Bytes_lt _ (char_toNat_lt_max c) b hb
    simp only [pctEncodeByte, List.mem_cons, List.not_mem_nil, or_false] at hpb
    rcases hpb with rfl | rfl | rfl
    · exact ⟨by decide, by decide⟩
    · exact hexDigit_ne _ (by omega)
    · exact hexDigit_ne _ (by omega)

theorem natToCharsAux_acc (n : ℕ) : ∀ acc, natToCharsAux n acc = natToCharsAux n [] ++ acc := by
  induction n using Nat.strong_induction_on with
  | _ n ih =>
      intro acc
      by_cases h : n = 0
      · subst h
        simp [natToCharsAux]
      · have hlt : n / 10 < n := Nat.div_lt_self (Nat.pos_of_ne_zero h) (by omega)
        conv_lhs => rw [natToCharsAux]
        conv_rhs => rw [natToCharsAux]
        rw [dif_neg h, dif_neg h,
          ih (n / 10) hlt (Char.ofNat (n % 10 + '0'.toNat) :: acc),
          ih (n / 10) hlt [Char.ofNat (n % 10 + '0'.toNat)], List.append_assoc]
        rfl

theorem digitVal_ofNat (k : ℕ) (hk : k < 10) :
    digitVal (Char.ofNat (k + '0'.toNat)) = some k := by
  interval_cases k <;> decide

theorem digitsValAux_append (l1 l2 : List Char) : ∀ acc,
    digitsValAux (l1 ++ l2) acc =
      match digitsValAux l1 acc with
      | some v => digitsValAux l2 v
      | none => none := by
  induction l1 with
  | nil => intro acc; rfl
  | cons c t ih =>
      intro acc
      simp only [List.cons_append, digitsValAux]
      cases digitVal c with
      | some d => exact ih _
      | none => rfl

theorem digitsValAux_natToCharsAux (n : ℕ) : ∀ v,
    digitsValAux (natToCharsAux n []) v =
      some (v * 10 ^ (natToCharsAux n []).length + n) := by
  induction n using Nat.strong_induction_on with
  | _ n ih =>
      intro v
      by_cases h : n = 0
      · subst h
        simp [natToCharsAux, digitsValAux]
      · have hlt : n / 10 < n := Nat.div_lt_self (Nat.pos_of_ne_zero h) (by omega)
        rw [natToCharsAux, dif_neg h, natToCharsAux_acc (n / 10),
          digitsValAux_append, ih (n / 10) hlt v]
        have hmod : n % 10 < 10 := Nat.mod_lt _ (by omega)
        simp only [digitsValAux, digitVal_ofNat _ hmod, List.length_append,
          List.length_cons, List.length_nil]
        congr 1
        have : 10 ^ ((natToCharsAux (n / 10) []).length + (0 + 1)) =
            10 ^ (natToCharsAux (n / 10) []).length * 10 := by ring
        rw [this]
        have hdm : 10 * (n / 10) + n % 10 = n := by omega
        ring_nf
        omega

theorem natToChars_ne_nil (n : ℕ) : natToChars n ≠ [] := by
  rw [natToChars]
  split_ifs with h
  · simp
  · rw [natToCharsAux, dif_neg h, natToCharsAux_acc]
    simp

theorem digitsVal_natToChars (n : ℕ) : digitsVal (natToChars n) = some n := by
  by_cases h : n = 0
  · subst h
    decide
  · rw [digitsVal, if_neg (by simpa [List.isEmpty_iff] using natToChars_ne_nil n),
      natToChars, if_neg h, digitsValAux_natToCharsAux]
    simp

theorem mem_natToCharsAux (n : ℕ) : ∀ acc c, c ∈ natToCharsAux n acc →
    c ∈ acc ∨ c.isDigit = true := by
  induction n using Nat.strong_induction_on with
  | _ n ih =>
      intro acc c hc
      by_cases h : n = 0
      · subst h
        rw [natToCharsAux, dif_pos rfl] at hc
        exact Or.inl hc
      · have hlt : n / 10 < n := Nat.div_lt_self (Nat.pos_of_ne_zero h) (by omega)
        rw [natToCharsAux, dif_neg h] at hc
        rcases ih (n / 10) hlt _ c hc with hmem | hdig
        · rcases List.mem_cons.mp hmem with rfl | hmem2
          · right
            have hm : n % 10 < 10 := Nat.mod_lt _ (by omega)
            interval_cases hv : n % 10 <;> decide
          · exact Or.inl hmem2
        · exact Or.inr hdig

theorem mem_natToChars_digit (n : ℕ) (c : Char) (hc : c ∈ natToChars n) :
    c.isDigit = true := by
  rw [natToChars] at hc
  split_ifs at hc with h
  · simp only [List.mem_singleton] at hc
    subst hc
    decide
  · rcases mem_natToCharsAux n [] c hc with hmem | hdig
    · exact absurd hmem (List.not_mem_nil c)
    · exact hdig

theorem natToCharsAux_len_le (n : ℕ) : ∀ k, n < 10 ^ k →
    (natToCharsAux n []).length ≤ k := by
  induction n using Nat.strong_induction_on with
  | _ n ih =>
      intro k hk
      by_cases h : n = 0
      · subst h
        rw [natToCharsAux, dif_pos rfl]
        simp
      · have hlt : n / 10 < n := Nat.div_lt_self (Nat.pos_of_ne_zero h) (by omega)
        rw [natToCharsAux, dif_neg h, natToCharsAux_acc]
        have hk1 : 1 ≤ k := by
          by_contra hc
          have : k = 0 := by omega
          subst this
          simp at hk
          omega
        have hdiv : n / 10 < 10 ^ (k - 1) := by
          have h10 : (10 : ℕ) ^ k = 10 ^ (k - 1) * 10 := by
            conv_lhs => rw [show k = (k - 1) + 1 by omega]
            ring
          rw [h10] at hk
          omega
        have := ih (n / 10) hlt (k - 1) hdiv
        simp only [List.length_append, List.length_cons, List.length_nil]
        omega

theorem digitsValAux_replicate_zero (z : ℕ) :
    digitsValAux (List.replicate z '0') 0 = some 0 := by
  induction z with
  | zero => rfl
  | succ m ih =>
      rw [List.replicate_succ]
      show digitsValAux ('0' :: List.replicate m '0') 0 = some 0
      simp only [digitsValAux, digitVal]
      norm_num
      exact ih

theorem digitsVal_fracPad (m e : ℕ) (hm : (natToChars m).length ≤ e) :
    digitsVal (fracPad m e) = some m ∧ (fracPad m e).length = e := by
  constructor
  · rw [digitsVal, fracPad]
    rw [if_neg (by simp [List.isEmpty_iff, natToChars_ne_nil])]
    rw [digitsValAux_append, digitsValAux_replicate_zero]
    have h2 := digitsVal_natToChars m
    rw [digitsVal, if_neg (by simpa [List.isEmpty_iff] using natToChars_ne_nil m)] at h2
    exact h2
  · rw [fracPad]
    simp only [List.length_append, List.length_replicate]
    omega

theorem jsSplit_not_mem (sep : Char) (l : List Char) (h : sep ∉ l) :
    jsSplit sep l = [l] := by
  induction l with
  | nil => rfl
  | cons c t ih =>
      have hc : ¬(c = sep) := fun hh => h (by simp [hh])
      have ht : sep ∉ t := fun hh => h (by simp [hh])
      simp only [jsSplit, if_neg hc, ih ht]

theorem jsSplit_append (sep : Char) (A B : List Char) (hA : sep ∉ A) :
    jsSplit sep (A ++ sep :: B) = A :: jsSplit sep B := by
  induction A with
  | nil =>
      rw [List.nil_append]
      simp [jsSplit]
  | cons c t ih =>
      have hc : ¬(c = sep) := fun hh => hA (by simp [hh])
      have ht : sep ∉ t := fun hh => hA (by simp [hh])
      rw [List.cons_append]
      simp only [jsSplit, if_neg hc]
      rw [ih ht]

theorem jsSplit_intercalate (chunks : List (List Char)) (hne : chunks ≠ [])
    (hmem : ∀ l ∈ chunks, ',' ∉ l) :
    jsSplit ',' (List.intercalate [','] chunks) = chunks := by
  induction chunks with
  | nil => exact absurd rfl hne
  | cons c cs ih =>
      cases cs with
      | nil =>
          rw [show List.intercalate [','] [c] = c from by simp [List.intercalate]]
          exact jsSplit_not_mem ',' c (hmem c (by simp))
      | cons c2 cs2 =>
          rw [show List.intercalate [','] (c :: c2 :: cs2) =
              c ++ ',' :: List.intercalate [','] (c2 :: cs2) from by simp [List.intercalate],
            jsSplit_append ',' c _ (hmem c (by simp)),
            ih (by simp) (fun l hl => hmem l (by simp [hl]))]

theorem jsLastIndexOf_not_mem (c : Char) (l : List Char) (h : c ∉ l) :
    jsLastIndexOf c l = -1 := by
  induction l with
  | nil => rfl
  | cons a t ih =>
      have ha : ¬(a = c) := fun hh => h (by simp [hh])
      have ht : c ∉ t := fun hh => h (by simp [hh])
      simp only [jsLastIndexOf, ih ht]
      norm_num [ha]

theorem jsLastIndexOf_append (c : Char) (A B : List Char) (hA : c ∉ A) (hB : c ∉ B) :
    jsLastIndexOf c (A ++ c :: B) = A.length := by
  induction A with
  | nil =>
      simp only [List.nil_append, jsLastIndexOf, jsLastIndexOf_not_mem c B hB]
      norm_num
  | cons a t ih =>
      have ht : c ∉ t := fun hh => hA (by simp [hh])
      rw [List.cons_append]
      simp only [jsLastIndexOf]
      rw [ih ht]
      rw [if_pos (by omega : (t.length : ℤ) ≥ 0)]
      simp only [List.length_cons]
      push_cast
      ring

theorem jsSlice2_prefix (A B : List Char) : jsSlice2 (A ++ B) 0 A.length = A := by
  simp only [jsSlice2]
  rw [if_neg (by omega : ¬((0 : ℤ) < 0)),
    if_neg (by omega : ¬((A.length : ℤ) < 0))]
  have h1 : min (0 : ℤ) ((A ++ B).length : ℤ) = 0 := by
    have : (0 : ℤ) ≤ ((A ++ B).length : ℤ) := by omega
    omega
  have h2 : min ((A.length : ℤ)) ((A ++ B).length : ℤ) = A.length := by
    simp only [List.length_append]
    push_cast
    omega
  rw [h1, h2]
  simp only [Int.toNat_ofNat, Int.toNat_zero, List.drop_zero]
  exact List.take_left A B

theorem jsSliceFrom_suffix (A B : List Char) : jsSliceFrom (A ++ B) A.length = B := by
  simp only [jsSliceFrom, jsSlice2]
  rw [if_neg (by omega : ¬((A.length : ℤ) < 0)),
    if_neg (by omega : ¬(((A ++ B).length : ℤ) < 0))]
  have h2 : min ((A.length : ℤ)) ((A ++ B).length : ℤ) = A.length := by
    simp only [List.length_append]
    push_cast
    omega
  rw [h2, min_self]
  simp only [Int.toNat_ofNat]
  rw [List.take_length]
  exact List.drop_left A B

theorem mem_fracPad_digit (m e : ℕ) (c : Char) (hc : c ∈ fracPad m e) :
    c.isDigit = true := by
  rw [fracPad] at hc
  rcases List.mem_append.mp hc with h | h
  · rw [List.eq_of_mem_replicate h]
    decide
  · exact mem_natToChars_digit _ _ h

theorem mem_ratToChars (q : ℚ) (c : Char) (hc : c ∈ ratToChars q) :
    c = '-' ∨ c = '.' ∨ c.isDigit = true := by
  rw [ratToChars] at hc
  split_ifs at hc
  · rcases List.mem_append.mp hc with h | h
    · simp only [List.mem_singleton] at h
      exact Or.inl h
    · exact Or.inr (Or.inr (mem_natToChars_digit _ _ h))
  · rw [List.nil_append] at hc
    exact Or.inr (Or.inr (mem_natToChars_digit _ _ hc))
  · rcases List.mem_append.mp hc with h | h
    · rcases List.mem_append.mp h with h2 | h2
      · simp only [List.mem_singleton] at h2
        exact Or.inl h2
      · exact Or.inr (Or.inr (mem_natToChars_digit _ _ h2))
    · rcases List.mem_cons.mp h with rfl | h3
      · exact Or.inr (Or.inl rfl)
      · exact Or.inr (Or.inr (mem_fracPad_digit _ _ _ h3))
  · rw [List.nil_append] at hc
    rcases List.mem_append.mp hc with h2 | h2
    · exact Or.inr (Or.inr (mem_natToChars_digit _ _ h2))
    · rcases List.mem_cons.mp h2 with rfl | h3
      · exact Or.inr (Or.inl rfl)
      · exact Or.inr (Or.inr (mem_fracPad_digit _ _ _ h3))

theorem ratToChars_ne (q : ℚ) (c : Char) (hc : c ∈ ratToChars q) :
    c ≠ ':' ∧ c ≠ ',' := by
  rcases mem_ratToChars q c hc with rfl | rfl | hd
  · exact ⟨by decide, by decide⟩
  · exact ⟨by decide, by decide⟩
  · constructor
    · intro rfl2
      rw [rfl2] at hd
      exact absurd hd (by decide)
    · intro rfl2
      rw [rfl2] at hd
      exact absurd hd (by decide)

theorem jsNumber_cons_ne (c : Char) (r : List Char) (h1 : c ≠ '-') (h2 : c ≠ '+') :
    jsNumber (c :: r) = parseUnsigned (c :: r) := by
  rw [jsNumber.eq_def]
  split
  · rename_i heq
    exact absurd heq (by simp)
  · rename_i r2 heq
    injection heq with ha hb
    exact absurd ha h1
  · rename_i r2 heq
    injection heq with ha hb
    exact absurd ha h2
  · rfl

theorem natToChars_len_le (n k : ℕ) (h : n < 10 ^ k) (hk : 1 ≤ k) :
    (natToChars n).length ≤ k := by
  rw [natToChars]
  split_ifs with h0
  · simpa using hk
  · exact natToCharsAux_len_le n k h

theorem natToChars_head_digit (m : ℕ) :
    ∃ c r, natToChars m = c :: r ∧ c ≠ '-' ∧ c ≠ '+' := by
  obtain ⟨c, r, hcr⟩ := List.exists_cons_of_ne_nil (natToChars_ne_nil m)
  have hcd : c.isDigit = true := mem_natToChars_digit m c (by rw [hcr]; simp)
  refine ⟨c, r, hcr, ?_, ?_⟩
  · intro h2
    rw [h2] at hcd
    exact absurd hcd (by decide)
  · intro h2
    rw [h2] at hcd
    exact absurd hcd (by decide)

theorem dot_not_mem_natToChars (m : ℕ) : '.' ∉ natToChars m := by
  intro hmem
  exact absurd (mem_natToChars_digit m _ hmem) (by decide)

theorem dot_not_mem_fracPad (m e : ℕ) : '.' ∉ fracPad m e := by
  intro hmem
  exact absurd (mem_fracPad_digit m e _ hmem) (by decide)

theorem jsNumber_ratToChars (q : ℚ) (hq : 0 < q)
    (hdec : (q.den : ℕ) ∣ 10 ^ decExp q.den) :
    jsNumber (ratToChars q) = some q := by
  have hq0 : ¬(q < 0) := not_lt.mpr hq.le
  have hden0 : ((q.den : ℚ)) ≠ 0 := by
    have := q.pos
    positivity
  have h10 : ((10 : ℚ) ^ decExp q.den) ≠ 0 := by positivity
  have hdvd : q.den ∣ q.num.natAbs * 10 ^ decExp q.den := Dvd.dvd.mul_left hdec _
  have hmd : q.num.natAbs * 10 ^ decExp q.den / q.den * q.den =
      q.num.natAbs * 10 ^ decExp q.den := Nat.div_mul_cancel hdvd
  have h1 : ((q.num.natAbs * 10 ^ decExp q.den / q.den : ℕ) : ℚ) * (q.den : ℚ) =
      (q.num : ℚ) * 10 ^ decExp q.den := by
    have hc : (((q.num.natAbs * 10 ^ decExp q.den / q.den) * q.den : ℕ) : ℚ) =
        ((q.num.natAbs * 10 ^ decExp q.den : ℕ) : ℚ) := by exact_mod_cast hmd
    push_cast at hc
    rw [hc, Nat.cast_natAbs, abs_of_nonneg (Rat.num_pos.mpr hq).le]
  have h2 : q * (q.den : ℚ) = (q.num : ℚ) :=
    (eq_div_iff hden0).mp (Rat.num_div_den q).symm
  have h3 : q * 10 ^ decExp q.den * (q.den : ℚ) =
      ((q.num.natAbs * 10 ^ decExp q.den / q.den : ℕ) : ℚ) * (q.den : ℚ) := by
    linear_combination (10 : ℚ) ^ decExp q.den * h2 - h1
  have hq_eq : q = ((q.num.natAbs * 10 ^ decExp q.den / q.den : ℕ) : ℚ)
      / 10 ^ decExp q.den := by
    rw [eq_div_iff h10]
    exact mul_right_cancel₀ hden0 h3
  by_cases he0 : decExp q.den = 0
  · have hrtc : ratToChars q =
        natToChars (q.num.natAbs * 10 ^ decExp q.den / q.den) := by
      rw [ratToChars]
      simp only [if_pos he0, if_neg hq0, List.nil_append]
    have hfin : ((q.num.natAbs * 10 ^ decExp q.den / q.den : ℕ) : ℚ) = q := by
      conv_rhs => rw [hq_eq]
      rw [he0]
      norm_num
    obtain ⟨c, r, hcr, hcm, hcp⟩ :=
      natToChars_head_digit (q.num.natAbs * 10 ^ decExp q.den / q.den)
    rw [hrtc, hcr, jsNumber_cons_ne c r hcm hcp, ← hcr, parseUnsigned,
      jsSplit_not_mem '.' _ (dot_not_mem_natToChars _)]
    simp only [digitsVal_natToChars, Option.bind_eq_bind, Option.some_bind, Option.map_some]
    exact congrArg some hfin
  · have hrtc : ratToChars q =
        natToChars (q.num.natAbs * 10 ^ decExp q.den / q.den / 10 ^ decExp q.den)
          ++ '.' :: fracPad (q.num.natAbs * 10 ^ decExp q.den / q.den % 10 ^ decExp q.den)
            (decExp q.den) := by
      rw [ratToChars]
      simp only [if_neg he0, if_neg hq0, List.nil_append]
    obtain ⟨c, r, hcr, hcm, hcp⟩ :=
      natToChars_head_digit (q.num.natAbs * 10 ^ decExp q.den / q.den / 10 ^ decExp q.den)
    have hfr := digitsVal_fracPad
      (q.num.natAbs * 10 ^ decExp q.den / q.den % 10 ^ decExp q.den) (decExp q.den)
      (natToChars_len_le _ _ (Nat.mod_lt _ (by positivity)) (by omega))
    have hsplit : jsSplit '.' (ratToChars q) =
        [natToChars (q.num.natAbs * 10 ^ decExp q.den / q.den / 10 ^ decExp q.den),
         fracPad (q.num.natAbs * 10 ^ decExp q.den / q.den % 10 ^ decExp q.den)
           (decExp q.den)] := by
      rw [hrtc, jsSplit_append '.' _ _ (dot_not_mem_natToChars _),
        jsSplit_not_mem '.' _ (dot_not_mem_fracPad _ _)]
    have hhead : ratToChars q = c :: (r ++ '.' :: fracPad
        (q.num.natAbs * 10 ^ decExp q.den / q.den % 10 ^ decExp q.den) (decExp q.den)) := by
      rw [hrtc, hcr]
      rfl
    have hie1 : (natToChars
        (q.num.natAbs * 10 ^ decExp q.den / q.den / 10 ^ decExp q.den)).isEmpty = false :=
      List.isEmpty_eq_false.mpr (natToChars_ne_nil _)
    have hie2 : (fracPad (q.num.natAbs * 10 ^ decExp q.den / q.den % 10 ^ decExp q.den)
        (decExp q.den)).isEmpty = false := by
      rw [List.isEmpty_eq_false, fracPad]
      intro hnil
      exact natToChars_ne_nil _ (List.append_eq_nil.mp hnil).2
    rw [hhead, jsNumber_cons_ne c _ hcm hcp, ← hhead, parseUnsigned, hsplit]
    simp only [hie1, hie2, digitsVal_natToChars, hfr.1, Bool.false_and,
      Bool.false_eq_true, if_false]
    have hfinal : ((q.num.natAbs * 10 ^ decExp q.den / q.den / 10 ^ decExp q.den : ℕ) : ℚ)
        + ((q.num.natAbs * 10 ^ decExp q.den / q.den % 10 ^ decExp q.den : ℕ) : ℚ)
          / 10 ^ (fracPad (q.num.natAbs * 10 ^ decExp q.den / q.den % 10 ^ decExp q.den)
            (decExp q.den)).length = q := by
      rw [hfr.2]
      conv_rhs => rw [hq_eq]
      rw [add_div' _ _ _ h10]
      have hN : q.num.natAbs * 10 ^ decExp q.den / q.den / 10 ^ decExp q.den
            * 10 ^ decExp q.den
          + q.num.natAbs * 10 ^ decExp q.den / q.den % 10 ^ decExp q.den
          = q.num.natAbs * 10 ^ decExp q.den / q.den := by
        rw [Nat.mul_comm (q.num.natAbs * 10 ^ decExp q.den / q.den / 10 ^ decExp q.den)
          (10 ^ decExp q.den)]
        exact Nat.div_add_mod _ _
      have hC : ((q.num.natAbs * 10 ^ decExp q.den / q.den / 10 ^ decExp q.den : ℕ) : ℚ)
            * 10 ^ decExp q.den
          + ((q.num.natAbs * 10 ^ decExp q.den / q.den % 10 ^ decExp q.den : ℕ) : ℚ)
          = ((q.num.natAbs * 10 ^ decExp q.den / q.den : ℕ) : ℚ) := by
        exact_mod_cast hN
      rw [hC]
    rw [hfinal]

theorem parseHoldings_single (a : List Char) (v : ℚ) (hv : 0 < v)
    (hd : (v.den : ℕ) ∣ 10 ^ decExp v.den) :
    decodeURIComponent (jsSlice2 (encodeURIComponent a ++ ':' :: ratToChars v) 0
        (jsLastIndexOf ':' (encodeURIComponent a ++ ':' :: ratToChars v))) = a ∧
    jsNumber (jsSliceFrom (encodeURIComponent a ++ ':' :: ratToChars v)
        (jsLastIndexOf ':' (encodeURIComponent a ++ ':' :: ratToChars v) + 1)) = some v := by
  have hA : ':' ∉ encodeURIComponent a := fun h => (mem_encode_ne a ':' h).1 rfl
  have hB : ':' ∉ ratToChars v := fun h => (ratToChars_ne v ':' h).1 rfl
  have hsep : jsLastIndexOf ':' (encodeURIComponent a ++ ':' :: ratToChars v) =
      ((encodeURIComponent a).length : ℤ) := jsLastIndexOf_append ':' _ _ hA hB
  constructor
  · rw [hsep, jsSlice2_prefix (encodeURIComponent a) (':' :: ratToChars v), decode_encode]
  · rw [hsep]
    have hform : encodeURIComponent a ++ ':' :: ratToChars v =
        (encodeURIComponent a ++ [':']) ++ ratToChars v := by simp
    have hlen : ((encodeURIComponent a).length : ℤ) + 1 =
        (((encodeURIComponent a ++ [':']).length : ℕ) : ℤ) := by
      simp
    rw [hform, hlen, jsSliceFrom_suffix (encodeURIComponent a ++ [':']) (ratToChars v),
      jsNumber_ratToChars v hv hd]

theorem filter_map_eq_self {A : Type} (l : List A) (G : A → A) (keep : A → Bool)
    (hG : ∀ p ∈ l, G p = p) (hk : ∀ p ∈ l, keep p = true) :
    (l.map G).filter keep = l := by
  rw [List.map_congr_left (fun p hp => (hG p hp).trans rfl), List.map_id']
  exact List.filter_eq_self.mpr hk

/-- C9: the holdings wire format round-trips: for every list of
(assetId, valueUSD) pairs whose values are positive finite decimals
(denominator dividing a power of ten, as every finite JavaScript number
printed in plain decimal notation is), parsing the comma-separated string of
urlEncode(assetId):valueUSD pairs yields exactly the original list in order;
and every pair in any parsed result has positive value, so pairs whose value
fails to parse (defaulting to 0) or is non-positive are absent. -/
theorem claim9_holdings_roundtrip (pairs : List (List Char × ℚ))
    (hpos : ∀ p ∈ pairs, 0 < p.2)
    (hten : ∀ p ∈ pairs, ((p.2.den : ℕ)) ∣ 10 ^ decExp p.2.den) :
    parseHoldings (encodeHoldings pairs) = pairs ∧
      ∀ (w : List Char) (p : List Char × ℚ), p ∈ parseHoldings w → 0 < p.2 := by
  constructor
  · cases pairs with
    | nil =>
        show parseHoldings (encodeHoldings []) = []
        rw [show encodeHoldings [] = [] from by simp [encodeHoldings, List.intercalate]]
        norm_num [parseHoldings, jsSplit, jsLastIndexOf, jsSlice2, jsSliceFrom,
          decodeURIComponent, pctTokens, utf8Assemble, jsNumber]
    | cons p0 rest =>
        rw [encodeHoldings, parseHoldings,
          jsSplit_intercalate _ (by simp)
            (by
              intro l hl
              rcases List.mem_map.mp hl with ⟨p, -, rfl⟩
              intro hmem
              rcases List.mem_append.mp hmem with h | h
              · exact (mem_encode_ne _ ',' h).2 rfl
              · rcases List.mem_cons.mp h with h2 | h2
                · exact absurd h2 (by decide)
                · exact (ratToChars_ne _ ',' h2).2 rfl),
          List.map_map]
        refine filter_map_eq_self _ _ _ ?_ ?_
        · intro p hp
          obtain ⟨h1, h2⟩ := parseHoldings_single p.1 p.2 (hpos p hp) (hten p hp)
          simp only [Function.comp_apply, h1, h2]
        · intro p hp
          exact decide_eq_true (hpos p hp)
  · intro w p hp
    rw [parseHoldings] at hp
    exact of_decide_eq_true (List.mem_filter.mp hp).2

theorem claim9_holdings_roundtrip_witness :
    parseHoldings (encodeHoldings [(['b', 't', 'c'], 5)]) = [(['b', 't', 'c'], 5)] ∧
      ∀ (w : List Char) (p : List Char × ℚ), p ∈ parseHoldings w → 0 < p.2 :=
  claim9_holdings_roundtrip [(['b', 't', 'c'], 5)]
    (by intro p hp; rw [List.mem_singleton] at hp; subst hp; decide)
    (by intro p hp; rw [List.mem_singleton] at hp; subst hp; exact Nat.one_dvd _)
